import Mathlib

/-!
# tinyjs — shallow embedding and verification

A shallow embedding of the tinyjs interpreter pipeline (lexer, AST-level
optimizer, tree-walking evaluator) translated from the Rust sources
(`src/lexer.rs`, `src/lexer/token.rs`, `src/parser/ast.rs`,
`src/optim/optim.rs`, `src/runtime/scope.rs`, `src/runtime/builtins.rs`,
`src/runtime/interpreter.rs`).

Modelling conventions:
* Rust `f64` numbers are modelled by `ℚ`.  All programs appearing in the
  claims use small integers, where `ℚ` and `f64` agree exactly.  IEEE
  specials (NaN, infinities) and decimal rendering of non-integers are not
  representable; the spots that would need them are marked in comments and
  are not reached by any claim.
* The shared mutable arrays (`Rc<RefCell<Vec<Box<Literal>>>>`) are modelled
  by a heap: `Literal.array` holds an address into `InterpState.heap`.
* Panics (`panic!`, `.expect`, `.unwrap`) are modelled by the `Outcome.err`
  result, which carries the output printed before the abort; divergence is
  modelled by fuel exhaustion (`Outcome.timeout`).
* The interpreter walk is fuelled: every recursive call consumes one unit.
-/

namespace TinyJs

/-- `BinaryOperator` from `src/parser/ast.rs` (13 variants; the parser file
refers to extra compound-assignment opcodes that do not exist in `ast.rs`,
and neither the optimizer nor the interpreter has arms for them). -/
inductive BinaryOperator where
  | add | sub | mul | div
  | binaryAnd | binaryOr
  | greaterThan | lessThan | greaterThanOrEqual | lessThanOrEqual
  | equal | notEqual
  | mod
  deriving DecidableEq

/-- `UnaryOperator` from `src/parser/ast.rs`. -/
inductive UnaryOperator where
  | negate | notOp
  deriving DecidableEq

mutual

/-- `Literal` from `src/parser/ast.rs`.  `array` carries a heap address in
place of the `Rc<RefCell<..>>` pointer; `nativeFunction` carries the debug
name and the bound receiver (the Rust side stores a closure capturing the
receiver; dispatch in this model is by name, see `callNative`). -/
inductive Literal where
  | number (n : ℚ)
  | str (s : String)
  | nullLit
  | boolean (b : Bool)
  | undefined
  | array (addr : Nat)
  | object (props : List (String × Literal))
  | function (args : List String) (body : Statement)
  | nativeFunction (name : String) (recv : Option Literal)

/-- `Expression` from `src/parser/ast.rs`, plus the `Increment`/`Decrement`
variants that `src/parser/parser.rs` and `src/optim/optim.rs` require
(`ast.rs` in the snapshot lags behind those files). -/
inductive Expression where
  | literal (l : Literal)
  | identifier (name : String)
  | object (properties : List (String × Expression))
  | array (elements : List Expression)
  | binaryOp (left : Expression) (op : BinaryOperator) (right : Expression)
  | unaryOp (op : UnaryOperator) (expr : Expression)
  | functionCall (callee : Expression) (args : List Expression)
  | assignment (target : Expression) (value : Expression)
  | indexE (target : Expression) (idx : Expression)
  | property (target : Expression) (name : String)
  | increment (target : Expression)
  | decrement (target : Expression)

/-- `Statement` from `src/parser/ast.rs`. -/
inductive Statement where
  | expression (e : Expression)
  | ret (e : Expression)
  | continueStmt
  | breakStmt
  | ifStmt (condition : Expression) (consequence : Statement)
      (alternative : Option Statement)
  | whileStmt (condition : Expression) (body : Statement)
  | forStmt (init : Option Statement) (condition : Option Expression)
      (update : Option Expression) (body : Statement)
  | function (name : String) (args : List String) (body : Statement)
  | scope (statements : List Statement)
  | letStmt (name : String) (value : Expression)

end

/-- `AST` from `src/parser/ast.rs`: a list of top-level statements. -/
structure AST where
  statements : List Statement

/-- `Token` from `src/lexer/token.rs` (the variant set `src/lexer.rs`
actually emits: it uses `StringLiteral` and `EOF`, which the stale
`src/token.rs` lacks). -/
inductive Token where
  | identifier (name : String)
  | stringLiteral (s : String)
  | number (n : ℚ)
  | nullTok | undefinedTok
  | letTok | varTok | ifTok | elseTok | whileTok | forTok | doTok
  | continueTok | breakTok | returnTok | functionTok | trueTok | falseTok
  | leftParen | rightParen | leftBrace | rightBrace
  | leftBracket | rightBracket
  | comma | dot | colon | semicolon
  | slash | plus | minus | star | percent
  | percentEqual | slashEqual | plusEqual | minusEqual | starEqual
  | bang | bangEqual | equal | equalEqual
  | greater | greaterEqual | less | lessEqual
  | amp | ampAmp | pipe | pipePipe | plusPlus | minusMinus
  | eof

/-! ## Lexer (`src/lexer.rs`)

The source string is modelled as a `List Char` and the byte position as a
character index (`Lexer::peek_ahead` mixes `String::len` bytes with
`chars().nth`; the two agree on ASCII input, which covers every program in
the spec). -/

/-- The keyword table of `Lexer::lex_identifier`. -/
def keywordMap : List (String × Token) :=
  [("let", .letTok), ("var", .varTok), ("if", .ifTok), ("else", .elseTok),
   ("while", .whileTok), ("for", .forTok), ("do", .doTok),
   ("continue", .continueTok), ("break", .breakTok), ("return", .returnTok),
   ("function", .functionTok), ("true", .trueTok), ("false", .falseTok)]

/-- Continuation character of an identifier (`c.is_alphanumeric() || c ==
'_' || c == '$'`; ASCII approximation of Rust's Unicode
`is_alphanumeric`). -/
def isIdentContinue (c : Char) : Bool :=
  c.isAlphanum || c = '_' || c = '$'

/-- `Lexer::lex_identifier`: consume the identifier run starting at `pos`,
map to a keyword token when the word is a keyword. -/
def lexIdentifier (src : List Char) (pos : Nat) : Token × Nat :=
  let word := (src.drop pos).takeWhile isIdentContinue
  let w := String.mk word
  ((keywordMap.lookup w).getD (Token.identifier w), pos + word.length)

/-- Numeric value of a digit run (Rust parses via `str::parse::<f64>`,
which is exact for the integer ranges any claim touches). -/
def digitsToRat (ds : List Char) : ℚ :=
  (ds.foldl (fun acc c => acc * 10 + (c.toNat - 48)) 0 : Nat)

/-- `Lexer::lex_numeric`: consume the digit run starting at `pos`. -/
def lexNumeric (src : List Char) (pos : Nat) : Token × Nat :=
  let ds := (src.drop pos).takeWhile Char.isDigit
  (Token.number (digitsToRat ds), pos + ds.length)

/-- `Lexer::lex_literal`: consume a string literal whose opening quote sits
at `pos`.  `none` models the panic (`consume().unwrap()`) on an
unterminated string. -/
def lexStringLit (src : List Char) (pos : Nat) : Option (Token × Nat) :=
  let content := (src.drop (pos + 1)).takeWhile (fun c => c ≠ '"')
  if src.get? (pos + 1 + content.length) = some '"' then
    some (Token.stringLiteral (String.mk content), pos + content.length + 2)
  else
    none

/-- One iteration of the `while let Some(c) = self.peek()` loop of
`Lexer::lex`, given the current character `c` at `pos`.  Returns the
emitted token (if any) and the new position; `none` models a panic.
The `/` arm mirrors the source exactly: on `/=` it emits `SlashEqual`
WITHOUT consuming the `=` (the source has no `self.consume()` in that
branch), and `%`, `&`, `|` have no arms at all, falling into the
catch-all that silently skips the character. -/
def lexStep (src : List Char) (pos : Nat) (c : Char) : Option (Option Token × Nat) :=
  if ('a' ≤ c && c ≤ 'z') || ('A' ≤ c && c ≤ 'Z') || c = '_' then
    let (tok, pos') := lexIdentifier src pos
    some (some tok, pos')
  else if '0' ≤ c && c ≤ '9' then
    let (tok, pos') := lexNumeric src pos
    some (some tok, pos')
  else if c = '"' then
    (lexStringLit src pos).map (fun (tok, pos') => (some tok, pos'))
  else if c = ' ' || c = '\n' || c = '\t' then some (none, pos + 1)
  else if c = '(' then some (some .leftParen, pos + 1)
  else if c = ')' then some (some .rightParen, pos + 1)
  else if c = '{' then some (some .leftBrace, pos + 1)
  else if c = '}' then some (some .rightBrace, pos + 1)
  else if c = ';' then some (some .semicolon, pos + 1)
  else if c = ':' then some (some .colon, pos + 1)
  else if c = ',' then some (some .comma, pos + 1)
  else if c = '.' then some (some .dot, pos + 1)
  else if c = '[' then some (some .leftBracket, pos + 1)
  else if c = ']' then some (some .rightBracket, pos + 1)
  else if c = '/' then
    if src.get? (pos + 1) = some '/' then
      let comment := (src.drop (pos + 1)).takeWhile (fun ch => ch ≠ '\n')
      some (none, pos + 1 + comment.length)
    else if src.get? (pos + 1) = some '=' then
      some (some .slashEqual, pos + 1)
    else
      some (some .slash, pos + 1)
  else if c = '*' then
    if src.get? (pos + 1) = some '=' then some (some .starEqual, pos + 2)
    else some (some .star, pos + 1)
  else if c = '+' then
    if src.get? (pos + 1) = some '=' then some (some .plusEqual, pos + 2)
    else some (some .plus, pos + 1)
  else if c = '-' then
    if src.get? (pos + 1) = some '=' then some (some .minusEqual, pos + 2)
    else some (some .minus, pos + 1)
  else if c = '=' then
    if src.get? (pos + 1) = some '=' then some (some .equalEqual, pos + 2)
    else some (some .equal, pos + 1)
  else if c = '!' then
    if src.get? (pos + 1) = some '=' then some (some .bangEqual, pos + 2)
    else some (some .bang, pos + 1)
  else if c = '<' then
    if src.get? (pos + 1) = some '=' then some (some .lessEqual, pos + 2)
    else some (some .less, pos + 1)
  else if c = '>' then
    if src.get? (pos + 1) = some '=' then some (some .greaterEqual, pos + 2)
    else some (some .greater, pos + 1)
  else
    some (none, pos + 1)

/-- The main loop of `Lexer::lex`, fuelled (the Rust loop terminates since
every arm advances `pos`; fuel is a modelling device). -/
def lexGo : Nat → List Char → Nat → List Token → Option (List Token)
  | 0, _, _, _ => none
  | fuel + 1, src, pos, acc =>
    match src.get? pos with
    | none => some (acc ++ [Token.eof])
    | some c =>
      match lexStep src pos c with
      | none => none
      | some (tok?, pos') => lexGo fuel src pos' (acc ++ tok?.toList)

/-- `Lexer::lex` on a source string. -/
def lex (s : String) : Option (List Token) :=
  lexGo (s.length + 1) s.data 0 []

/-- Truncation toward zero, the rounding used by Rust's `f64 % f64` and by
the `f64 as usize` cast. -/
def ratTrunc (q : ℚ) : Int :=
  if 0 ≤ q then ⌊q⌋ else -⌊-q⌋

/-- Rust's `f64 % f64` (`fmod`): remainder with the sign of the dividend.
(On `r = 0` the Rust result is NaN, which `ℚ` cannot represent; `ℚ`
division by zero makes this arm return `l`.  No claim divides by zero.) -/
def ratFmod (l r : ℚ) : ℚ :=
  l - r * ratTrunc (l / r)

/-! ## Optimizer (`src/optim/optim.rs`)

State threading replaces the `&mut self` methods.  Constant frames are
stored innermost-first (the source `Vec` stores them outermost-first and
iterates with `.rev()`, so lookup order is identical). -/

/-- `ConstVal` from `src/optim/optim.rs`. -/
inductive ConstVal where
  | stringLit (s : String)
  | num (n : ℚ)
  | boolean (b : Bool)
  deriving DecidableEq

/-- `ConstVal::into_literal`. -/
def ConstVal.intoLiteral : ConstVal → Literal
  | .stringLit s => .str s
  | .num n => .number n
  | .boolean b => .boolean b

/-- `ConstVal::into_expression`. -/
def ConstVal.intoExpression (c : ConstVal) : Expression :=
  .literal c.intoLiteral

/-- The mutable fields of `Optimizer` (`constants`, `allow_new_constants`);
the AST travels separately. -/
structure OptState where
  constants : List (List (String × ConstVal))
  allowNew : Bool

/-- Insert-or-replace into an association list (`HashMap::insert`). -/
def alInsert (k : String) (v : ConstVal) :
    List (String × ConstVal) → List (String × ConstVal)
  | [] => [(k, v)]
  | (k', v') :: rest =>
    if k' = k then (k, v) :: rest else (k', v') :: alInsert k v rest

/-- Remove a key from an association list (`HashMap::remove`). -/
def alErase (k : String) :
    List (String × ConstVal) → List (String × ConstVal)
  | [] => []
  | (k', v') :: rest =>
    if k' = k then rest else (k', v') :: alErase k rest

/-- `Optimizer::mark_constant`.  (The `last_mut().unwrap()` cannot panic in
reachable states: the frame stack starts non-empty and `enter`/`exit` are
balanced; on an empty stack this model is a no-op.) -/
def OptState.markConstant (s : OptState) (name : String) (v : ConstVal) : OptState :=
  if !s.allowNew then s
  else
    match s.constants with
    | [] => s
    | f :: rest => { s with constants := alInsert name v f :: rest }

/-- `Optimizer::get_constant`: innermost frame first. -/
def OptState.getConstant (s : OptState) (name : String) : Option ConstVal :=
  s.constants.findSome? (fun f => f.lookup name)

/-- `Optimizer::remove_constant`: drop the entry from the innermost frame
that contains it. -/
def OptState.removeConstant (s : OptState) (name : String) : OptState :=
  { s with constants := removeConstantGo name s.constants }
where
  removeConstantGo (name : String) :
      List (List (String × ConstVal)) → List (List (String × ConstVal))
    | [] => []
    | f :: rest =>
      if (f.lookup name).isSome then alErase name f :: rest
      else f :: removeConstantGo name rest

/-- `Optimizer::close_constants`. -/
def OptState.closeConstants (s : OptState) : OptState :=
  { s with allowNew := false }

/-- `Optimizer::enter`. -/
def OptState.enterScope (s : OptState) : OptState :=
  { s with constants := [] :: s.constants }

/-- `Optimizer::exit`. -/
def OptState.exitScope (s : OptState) : OptState :=
  { s with constants := s.constants.tail }

mutual

/-- `Optimizer::propagate_expression`.  `FunctionCall`, `Index`,
`Property`, `Increment`, `Decrement` are opaque leaves. -/
def propagateExpression (s : OptState) : Expression → OptState × Expression
  | .literal l => (s, .literal l)
  | .identifier id =>
    match s.getConstant id with
    | some savedConst => (s, savedConst.intoExpression)
    | none => (s, .identifier id)
  | .object properties =>
    let (s', properties') := propagateProps s properties
    (s', .object properties')
  | .array elements =>
    let (s', elements') := propagateExprList s elements
    (s', .array elements')
  | .increment t => (s, .increment t)
  | .decrement t => (s, .decrement t)
  | .binaryOp left op right =>
    let (s1, left') := propagateExpression s left
    let (s2, right') := propagateExpression s1 right
    (s2, .binaryOp left' op right')
  | .unaryOp op expr =>
    let (s', expr') := propagateExpression s expr
    (s', .unaryOp op expr')
  | .functionCall callee args => (s, .functionCall callee args)
  | .assignment target value =>
    let s1 :=
      match target with
      | .identifier id =>
        if (s.getConstant id).isSome then s.removeConstant id else s
      | _ => s
    let (s2, value') := propagateExpression s1 value
    (s2, .assignment target value')
  | .indexE t i => (s, .indexE t i)
  | .property t n => (s, .property t n)

/-- Propagation over object properties, threading the optimizer state in
source order. -/
def propagateProps (s : OptState) :
    List (String × Expression) → OptState × List (String × Expression)
  | [] => (s, [])
  | (k, v) :: rest =>
    let (s1, v') := propagateExpression s v
    let (s2, rest') := propagateProps s1 rest
    (s2, (k, v') :: rest')

/-- Propagation over an expression list, threading state in source order. -/
def propagateExprList (s : OptState) :
    List Expression → OptState × List Expression
  | [] => (s, [])
  | e :: rest =>
    let (s1, e') := propagateExpression s e
    let (s2, rest') := propagateExprList s1 rest
    (s2, e' :: rest')

/-- `Optimizer::propagate_statement`. -/
def propagateStatement (s : OptState) : Statement → OptState × Statement
  | .expression ex =>
    let (s', ex') := propagateExpression s ex
    (s', .expression ex')
  | .ret ex =>
    let (s', ex') := propagateExpression s ex
    (s', .ret ex')
  | .continueStmt => (s, .continueStmt)
  | .breakStmt => (s, .breakStmt)
  | .ifStmt condition consequence alternative =>
    let (s1, condition') := propagateExpression s condition
    let (s2, consequence') := propagateStatement s1 consequence
    let (s3, alternative') := propagateOptStmt s2 alternative
    (s3, .ifStmt condition' consequence' alternative')
  | .whileStmt condition body =>
    let (s1, condition') := propagateExpression s condition
    let (s2, body') := propagateStatement s1 body
    (s2, .whileStmt condition' body')
  | .forStmt init condition update body =>
    let (s1, init') := propagateOptStmt s init
    let (s2, condition') := propagateOptExpr s1 condition
    let (s3, update') := propagateOptExpr s2 update
    let (s4, body') := propagateStatement s3 body
    (s4, .forStmt init' condition' update' body')
  | .function name args body =>
    let (s', body') := propagateStatement s body
    (s', .function name args body')
  | .scope statements =>
    let (s1, statements') := propagateStmtList s.enterScope statements
    (s1.exitScope, .scope statements')
  | .letStmt name value =>
    let (s1, expr) := propagateExpression s value
    let s2 :=
      match expr with
      | .literal (.number n) => s1.markConstant name (.num n)
      | .literal (.str st) => s1.markConstant name (.stringLit st)
      | .literal (.boolean b) => s1.markConstant name (.boolean b)
      | _ => s1
    (s2, .letStmt name expr)

/-- Propagation over an optional statement. -/
def propagateOptStmt (s : OptState) :
    Option Statement → OptState × Option Statement
  | none => (s, none)
  | some st =>
    let (s', st') := propagateStatement s st
    (s', some st')

/-- Propagation over an optional expression. -/
def propagateOptExpr (s : OptState) :
    Option Expression → OptState × Option Expression
  | none => (s, none)
  | some e =>
    let (s', e') := propagateExpression s e
    (s', some e')

/-- Propagation over a statement list, threading state in source order. -/
def propagateStmtList (s : OptState) :
    List Statement → OptState × List Statement
  | [] => (s, [])
  | st :: rest =>
    let (s1, st') := propagateStatement s st
    let (s2, rest') := propagateStmtList s1 rest
    (s2, st' :: rest')

end

/-- `Optimizer::constant_value_propagation`.  The source's "discovery walk"
(`let _ = stmts.clone().into_iter().map(|stmt| self.propagate_statement(stmt));`)
builds a lazy iterator that is immediately dropped without being consumed,
so it records nothing; the model reflects that by going straight to
`close_constants` and the rewrite walk. -/
def constantValuePropagation (a : AST) : AST :=
  let s0 : OptState := { constants := [[]], allowNew := true }
  -- discovery walk: dead code in the source (unconsumed lazy `map`)
  let s1 := s0.closeConstants
  let (_, stmts) := propagateStmtList s1 a.statements
  { statements := stmts }

mutual

/-- `Optimizer::fold_expression`: one bottom-handed rewrite; a
literal-literal `BinaryOp`/`UnaryOp` at the current node folds, anything
else recurses into children (without re-examining the rebuilt node). -/
def foldExpression : Expression → Expression
  | .literal l => .literal l
  | .identifier id => .identifier id
  | .object properties => .object (foldProps properties)
  | .increment t => .increment t
  | .decrement t => .decrement t
  | .array elements => .array (foldExprList elements)
  | .binaryOp left op right =>
    match left, op, right with
    | .literal (.number l), .add, .literal (.number r) => .literal (.number (l + r))
    | .literal (.str l), .add, .literal (.str r) => .literal (.str (l ++ r))
    | .literal (.number l), .sub, .literal (.number r) => .literal (.number (l - r))
    | .literal (.number l), .mul, .literal (.number r) => .literal (.number (l * r))
    | .literal (.number l), .div, .literal (.number r) => .literal (.number (l / r))
    | .literal (.number l), .mod, .literal (.number r) => .literal (.number (ratFmod l r))
    | l', op', r' => .binaryOp (foldExpression l') op' (foldExpression r')
  | .unaryOp op expr =>
    match op, expr with
    | .negate, .literal (.number n) => .literal (.number (-n))
    | .notOp, .literal (.boolean b) => .literal (.boolean (!b))
    | op', e' => .unaryOp op' (foldExpression e')
  | .functionCall callee args =>
    .functionCall (foldExpression callee) (foldExprList args)
  | .assignment target value => .assignment target (foldExpression value)
  | .indexE target idx => .indexE target (foldExpression idx)
  | .property t n => .property t n

/-- Folding over object properties. -/
def foldProps : List (String × Expression) → List (String × Expression)
  | [] => []
  | (k, v) :: rest => (k, foldExpression v) :: foldProps rest

/-- Folding over an expression list. -/
def foldExprList : List Expression → List Expression
  | [] => []
  | e :: rest => foldExpression e :: foldExprList rest

/-- `Optimizer::fold_statement`. -/
def foldStatement : Statement → Statement
  | .expression expr => .expression (foldExpression expr)
  | .ret expr => .ret (foldExpression expr)
  | .continueStmt => .continueStmt
  | .breakStmt => .breakStmt
  | .ifStmt condition consequence alternative =>
    .ifStmt (foldExpression condition) (foldStatement consequence)
      (foldOptStmt alternative)
  | .whileStmt condition body =>
    .whileStmt (foldExpression condition) (foldStatement body)
  | .forStmt init condition update body =>
    .forStmt (foldOptStmt init) (foldOptExpr condition)
      (foldOptExpr update) (foldStatement body)
  | .function name args body => .function name args (foldStatement body)
  | .scope statements => .scope (foldStmtList statements)
  | .letStmt name value => .letStmt name (foldExpression value)

/-- Folding over an optional statement. -/
def foldOptStmt : Option Statement → Option Statement
  | none => none
  | some st => some (foldStatement st)

/-- Folding over an optional expression. -/
def foldOptExpr : Option Expression → Option Expression
  | none => none
  | some e => some (foldExpression e)

/-- Folding over a statement list. -/
def foldStmtList : List Statement → List Statement
  | [] => []
  | st :: rest => foldStatement st :: foldStmtList rest

end

/-- `Optimizer::constant_folding`. -/
def constantFolding (a : AST) : AST :=
  { statements := foldStmtList a.statements }

/-- `Optimizer::tree_shaking` (`shake_statement` is the identity). -/
def treeShaking (a : AST) : AST :=
  { statements := a.statements.map (fun stmt => stmt) }

/-- `Optimizer::optimize`: propagation, folding, tree shaking
(`loop_unrolling` is commented out in the source). -/
def optimize (a : AST) : AST :=
  treeShaking (constantFolding (constantValuePropagation a))

/-! ## Runtime state (`src/runtime/scope.rs`, heap for shared arrays)

Scope frames are stored innermost-first (the source `Vec` stores them
outermost-first and `get` iterates with `.rev()`, so lookup order is
identical; `set` writes the innermost frame, i.e. the head).  The heap
models the `Rc<RefCell<Vec<Box<Literal>>>>` cells: an address is an index
into `heap`, and addresses are only created by allocation, mirroring `Rc`
(no dangling pointers in reachable states). -/

/-- Result of a fuelled evaluation step.  `err` models a Rust `panic!` /
`.expect` / `.unwrap` abort and carries the output printed before the
abort; `timeout` models fuel exhaustion (the Rust analogue is
divergence). -/
inductive Outcome (α : Type) where
  | ok (a : α)
  | err (msg : String) (out : List String)
  | timeout

def Outcome.bind {α β : Type} : Outcome α → (α → Outcome β) → Outcome β
  | .ok a, f => f a
  | .err m o, _ => .err m o
  | .timeout, _ => .timeout

instance : Monad Outcome where
  pure := Outcome.ok
  bind := Outcome.bind

/-- Insert-or-replace into a scope frame (`HashMap::insert`). -/
def frameInsert (k : String) (v : Literal) :
    List (String × Literal) → List (String × Literal)
  | [] => [(k, v)]
  | (k', v') :: rest =>
    if k' = k then (k, v) :: rest else (k', v') :: frameInsert k v rest

/-- The interpreter state: scope stack, array heap, printed output. -/
structure InterpState where
  scopes : List (List (String × Literal))
  heap : List (List Literal)
  output : List String

/-- `Scope::get`: innermost frame first. -/
def InterpState.getVar (st : InterpState) (name : String) : Option Literal :=
  st.scopes.findSome? (fun f => f.lookup name)

/-- `Scope::set`: write the innermost frame.  `none` models the
`last_mut().unwrap()` panic on an empty stack (unreachable: the stack
starts with the global frame and `enter`/`exit` are balanced). -/
def InterpState.setVar (st : InterpState) (name : String) (v : Literal) :
    Option InterpState :=
  match st.scopes with
  | [] => none
  | f :: rest => some { st with scopes := frameInsert name v f :: rest }

/-- `Scope::enter`. -/
def InterpState.enterScope (st : InterpState) : InterpState :=
  { st with scopes := [] :: st.scopes }

/-- `Scope::exit` (`Vec::pop`, a no-op on an empty stack). -/
def InterpState.exitScope (st : InterpState) : InterpState :=
  { st with scopes := st.scopes.tail }

/-- Allocate a fresh shared array cell (`Rc::new(RefCell::new(..))`). -/
def InterpState.alloc (st : InterpState) (elems : List Literal) :
    Nat × InterpState :=
  (st.heap.length, { st with heap := st.heap ++ [elems] })

/-- Overwrite the contents of an array cell (`borrow_mut`). -/
def InterpState.heapSet (st : InterpState) (addr : Nat) (elems : List Literal) :
    InterpState :=
  { st with heap := st.heap.set addr elems }

/-- Append one printed line (`println!`). -/
def InterpState.pushOut (st : InterpState) (s : String) : InterpState :=
  { st with output := st.output ++ [s] }

/-- `Literal::truthy` from `src/parser/ast.rs`; arrays read the heap
(`!a.borrow().is_empty()`).  `ℚ` cannot represent NaN, so the `is_nan`
conjunct of the `Number` arm is vacuous here. -/
def truthyB (heap : List (List Literal)) : Literal → Bool
  | .number n => n ≠ 0
  | .str s => s.length > 0
  | .nullLit => false
  | .boolean b => b
  | .undefined => false
  | .array addr => !(heap.getD addr []).isEmpty
  | .object o => !o.isEmpty
  | .function _ _ => true
  | .nativeFunction _ _ => true

/-! ### Structural equality (`#[derive(PartialEq)]` on `Literal`)

Rust's derived `PartialEq` compares arrays through the `Rc<RefCell<..>>`
(deep, by contents), hence the heap parameter; cyclic arrays would make the
Rust comparison overflow the stack, which the fuel models as `none`.
`NativeFn`'s `PartialEq` is `Rc::ptr_eq`; the model approximates the
pointer identity by name-and-receiver equality (no claim compares native
functions). -/

mutual

def litEqF : Nat → List (List Literal) → Literal → Literal → Option Bool
  | 0, _, _, _ => none
  | fuel + 1, h, a, b =>
    match a, b with
    | .number x, .number y => some (x == y)
    | .str x, .str y => some (x == y)
    | .nullLit, .nullLit => some true
    | .boolean x, .boolean y => some (x == y)
    | .undefined, .undefined => some true
    | .array x, .array y =>
      match h.get? x, h.get? y with
      | some ex, some ey => litListEqF fuel h ex ey
      | _, _ => none
    | .object x, .object y => litPropsEqF fuel h x y
    | .function a1 b1, .function a2 b2 =>
      if a1 = a2 then stmtEqF fuel h b1 b2 else some false
    | .nativeFunction n1 r1, .nativeFunction n2 r2 =>
      if n1 = n2 then litOptEqF fuel h r1 r2 else some false
    | _, _ => some false

def litOptEqF : Nat → List (List Literal) → Option Literal → Option Literal → Option Bool
  | 0, _, _, _ => none
  | fuel + 1, h, a, b =>
    match a, b with
    | none, none => some true
    | some x, some y => litEqF fuel h x y
    | _, _ => some false

def litListEqF : Nat → List (List Literal) → List Literal → List Literal → Option Bool
  | 0, _, _, _ => none
  | fuel + 1, h, a, b =>
    match a, b with
    | [], [] => some true
    | x :: xs, y :: ys => do
      let hd ← litEqF fuel h x y
      if hd then litListEqF fuel h xs ys else some false
    | _, _ => some false

def litPropsEqF : Nat → List (List Literal) →
    List (String × Literal) → List (String × Literal) → Option Bool
  | 0, _, _, _ => none
  | fuel + 1, h, a, b =>
    match a, b with
    | [], [] => some true
    | (k1, v1) :: xs, (k2, v2) :: ys =>
      if k1 = k2 then do
        let hd ← litEqF fuel h v1 v2
        if hd then litPropsEqF fuel h xs ys else some false
      else some false
    | _, _ => some false

def exprEqF : Nat → List (List Literal) → Expression → Expression → Option Bool
  | 0, _, _, _ => none
  | fuel + 1, h, a, b =>
    match a, b with
    | .literal x, .literal y => litEqF fuel h x y
    | .identifier x, .identifier y => some (x == y)
    | .object x, .object y => exprPropsEqF fuel h x y
    | .array x, .array y => exprListEqF fuel h x y
    | .binaryOp l1 o1 r1, .binaryOp l2 o2 r2 =>
      if o1 = o2 then do
        let hl ← exprEqF fuel h l1 l2
        if hl then exprEqF fuel h r1 r2 else some false
      else some false
    | .unaryOp o1 e1, .unaryOp o2 e2 =>
      if o1 = o2 then exprEqF fuel h e1 e2 else some false
    | .functionCall c1 a1, .functionCall c2 a2 => do
      let hc ← exprEqF fuel h c1 c2
      if hc then exprListEqF fuel h a1 a2 else some false
    | .assignment t1 v1, .assignment t2 v2 => do
      let ht ← exprEqF fuel h t1 t2
      if ht then exprEqF fuel h v1 v2 else some false
    | .indexE t1 i1, .indexE t2 i2 => do
      let ht ← exprEqF fuel h t1 t2
      if ht then exprEqF fuel h i1 i2 else some false
    | .property t1 n1, .property t2 n2 =>
      if n1 = n2 then exprEqF fuel h t1 t2 else some false
    | .increment t1, .increment t2 => exprEqF fuel h t1 t2
    | .decrement t1, .decrement t2 => exprEqF fuel h t1 t2
    | _, _ => some false

def exprListEqF : Nat → List (List Literal) → List Expression → List Expression → Option Bool
  | 0, _, _, _ => none
  | fuel + 1, h, a, b =>
    match a, b with
    | [], [] => some true
    | x :: xs, y :: ys => do
      let hd ← exprEqF fuel h x y
      if hd then exprListEqF fuel h xs ys else some false
    | _, _ => some false

def exprPropsEqF : Nat → List (List Literal) →
    List (String × Expression) → List (String × Expression) → Option Bool
  | 0, _, _, _ => none
  | fuel + 1, h, a, b =>
    match a, b with
    | [], [] => some true
    | (k1, v1) :: xs, (k2, v2) :: ys =>
      if k1 = k2 then do
        let hd ← exprEqF fuel h v1 v2
        if hd then exprPropsEqF fuel h xs ys else some false
      else some false
    | _, _ => some false

def stmtEqF : Nat → List (List Literal) → Statement → Statement → Option Bool
  | 0, _, _, _ => none
  | fuel + 1, h, a, b =>
    match a, b with
    | .expression x, .expression y => exprEqF fuel h x y
    | .ret x, .ret y => exprEqF fuel h x y
    | .continueStmt, .continueStmt => some true
    | .breakStmt, .breakStmt => some true
    | .ifStmt c1 t1 a1, .ifStmt c2 t2 a2 => do
      let hc ← exprEqF fuel h c1 c2
      if hc then do
        let ht ← stmtEqF fuel h t1 t2
        if ht then stmtOptEqF fuel h a1 a2 else some false
      else some false
    | .whileStmt c1 b1, .whileStmt c2 b2 => do
      let hc ← exprEqF fuel h c1 c2
      if hc then stmtEqF fuel h b1 b2 else some false
    | .forStmt i1 c1 u1 b1, .forStmt i2 c2 u2 b2 => do
      let hi ← stmtOptEqF fuel h i1 i2
      if hi then do
        let hc ← exprOptEqF fuel h c1 c2
        if hc then do
          let hu ← exprOptEqF fuel h u1 u2
          if hu then stmtEqF fuel h b1 b2 else some false
        else some false
      else some false
    | .function n1 a1 b1, .function n2 a2 b2 =>
      if n1 = n2 && a1 = a2 then stmtEqF fuel h b1 b2 else some false
    | .scope x, .scope y => stmtListEqF fuel h x y
    | .letStmt n1 v1, .letStmt n2 v2 =>
      if n1 = n2 then exprEqF fuel h v1 v2 else some false
    | _, _ => some false

def stmtListEqF : Nat → List (List Literal) → List Statement → List Statement → Option Bool
  | 0, _, _, _ => none
  | fuel + 1, h, a, b =>
    match a, b with
    | [], [] => some true
    | x :: xs, y :: ys => do
      let hd ← stmtEqF fuel h x y
      if hd then stmtListEqF fuel h xs ys else some false
    | _, _ => some false

def stmtOptEqF : Nat → List (List Literal) → Option Statement → Option Statement → Option Bool
  | 0, _, _, _ => none
  | fuel + 1, h, a, b =>
    match a, b with
    | none, none => some true
    | some x, some y => stmtEqF fuel h x y
    | _, _ => some false

def exprOptEqF : Nat → List (List Literal) → Option Expression → Option Expression → Option Bool
  | 0, _, _, _ => none
  | fuel + 1, h, a, b =>
    match a, b with
    | none, none => some true
    | some x, some y => exprEqF fuel h x y
    | _, _ => some false

end

/-! ## Builtins (`src/runtime/builtins.rs`) -/

/-- Rendering of an `f64` by Rust's `Display` (shortest round-trip decimal,
no trailing `.0`).  Exact for integers, which covers every claim; `ℚ`
cannot hold the non-integral doubles whose decimal rendering would
differ. -/
def numToString (q : ℚ) : String :=
  if q.den = 1 then toString q.num else toString q

/-- The stringification used by `Builtins::console_log`. -/
def logString : Literal → String
  | .str s => s
  | .number n => numToString n
  | .boolean b => if b then "true" else "false"
  | .nullLit => "null"
  | .undefined => "undefined"
  | .object _ => "[object]"
  | .array _ => "[array]"
  | .function _ _ => "[function]"
  | .nativeFunction _ _ => "[native function]"

/-- `Builtins::intrinsics_typeof` type names. -/
def typeofString : Literal → String
  | .str _ => "string"
  | .number _ => "number"
  | .boolean _ => "boolean"
  | .nullLit => "null"
  | .undefined => "undefined"
  | .object _ => "object"
  | .array _ => "array"
  | .function _ _ => "function"
  | .nativeFunction _ _ => "native function"

/-- Rust's `f64 as usize` cast: truncation toward zero, saturating —
negative values (and NaN) map to `0`, values at or above `usize::MAX`
saturate.  This is the cast used on array indices by the interpreter. -/
def f64AsUsize (q : ℚ) : Nat :=
  if q ≤ 0 then 0 else min ⌊q⌋.toNat (2 ^ 64 - 1)

/-- `Builtins::array_join` element collection: every element must be a
`String`, otherwise the source panics. -/
def joinStrings : List Literal → Option (List String)
  | [] => some []
  | .str s :: rest => (joinStrings rest).map (fun l => s :: l)
  | _ => none

/-- Rust's `str::split`: with an empty separator it yields a leading and a
trailing empty string around each character; with a non-empty separator it
agrees with `String.splitOn`. -/
def rustSplit (s delim : String) : List String :=
  if delim = "" then "" :: (s.data.map (fun c => String.mk [c]) ++ [""])
  else s.splitOn delim

/-- `Builtins::console_log`. -/
def consoleLog (args : List Literal) (st : InterpState) :
    Outcome (Literal × InterpState) :=
  match args with
  | [a] => .ok (.undefined, st.pushOut (logString a))
  | _ => .err "console.log takes exactly one argument" st.output

/-- `Builtins::intrinsics_typeof`. -/
def intrinsicsTypeof (args : List Literal) (st : InterpState) :
    Outcome (Literal × InterpState) :=
  match args with
  | [a] => .ok (.str (typeofString a), st)
  | _ => .err "typeof takes exactly one argument" st.output

/-- `Builtins::object_keys`. -/
def objectKeys (args : List Literal) (st : InterpState) :
    Outcome (Literal × InterpState) :=
  match args with
  | [.object props] =>
    let (addr, st') := st.alloc (props.map (fun p => .str p.1))
    .ok (.array addr, st')
  | [_] => .err "object.keys called on non-object" st.output
  | _ => .err "object.keys takes exactly one argument" st.output

/-- `Builtins::math_max`: at least two arguments, all numbers, folded with
`f64::max`. -/
def mathMax (args : List Literal) (st : InterpState) :
    Outcome (Literal × InterpState) :=
  match args with
  | [] => .err "Math.max takes at least two arguments" st.output
  | [_] => .err "Math.max takes at least two arguments" st.output
  | a :: rest =>
    match a with
    | .number n =>
      match rest.foldlM (fun (acc : ℚ) l =>
          match l with
          | Literal.number m => some (max acc m)
          | _ => none) n with
      | some m => .ok (.number m, st)
      | none => .err "Math.max called on non-number" st.output
    | _ => .err "Math.max called on non-number" st.output

/-- `Builtins::array_length`. -/
def arrayLength (recv : Literal) (st : InterpState) :
    Outcome (Literal × InterpState) :=
  match recv with
  | .array addr =>
    match st.heap.get? addr with
    | some elems => .ok (.number elems.length, st)
    | none => .err "dangling array" st.output
  | _ => .err "array.length called on non-array" st.output

/-- `Builtins::array_push`: append through the shared cell, return the new
length. -/
def arrayPush (recv : Literal) (args : List Literal) (st : InterpState) :
    Outcome (Literal × InterpState) :=
  match recv with
  | .array addr =>
    match args with
    | [v] =>
      match st.heap.get? addr with
      | some elems =>
        .ok (.number (elems.length + 1), st.heapSet addr (elems ++ [v]))
      | none => .err "dangling array" st.output
    | _ => .err "array.push takes exactly one argument" st.output
  | _ => .err "array.push called on non-array" st.output

/-- `Builtins::array_pop`.  The source really does require exactly one
argument (copy-paste of the push check, with push panic messages). -/
def arrayPop (recv : Literal) (args : List Literal) (st : InterpState) :
    Outcome (Literal × InterpState) :=
  match recv with
  | .array addr =>
    if args.length ≠ 1 then
      .err "array.push takes exactly one argument" st.output
    else
      match st.heap.get? addr with
      | some elems =>
        match elems.getLast? with
        | some last => .ok (last, st.heapSet addr (elems.dropLast))
        | none => .err "Array.pop called on empty array." st.output
      | none => .err "dangling array" st.output
  | _ => .err "array.push called on non-array" st.output

/-- `Builtins::array_join`: optional string delimiter (default `","`),
every element must be a string. -/
def arrayJoin (recv : Literal) (args : List Literal) (st : InterpState) :
    Outcome (Literal × InterpState) :=
  match recv with
  | .array addr =>
    match args with
    | [] => arrayJoinWith addr "," st
    | [.str d] => arrayJoinWith addr d st
    | [_] => .err "array.join expects a string as the delimiter" st.output
    | _ => .err "array.join takes at most one argument" st.output
  | _ => .err "array.join called on non-array" st.output
where
  arrayJoinWith (addr : Nat) (delim : String) (st : InterpState) :
      Outcome (Literal × InterpState) :=
    match st.heap.get? addr with
    | some elems =>
      match joinStrings elems with
      | some strs => .ok (.str (String.intercalate delim strs), st)
      | none => .err "array.join expects all elements to be strings" st.output
    | none => .err "dangling array" st.output

/-- `Builtins::array_reverse`: in place, returns the array. -/
def arrayReverse (recv : Literal) (st : InterpState) :
    Outcome (Literal × InterpState) :=
  match recv with
  | .array addr =>
    match st.heap.get? addr with
    | some elems => .ok (.array addr, st.heapSet addr elems.reverse)
    | none => .err "dangling array" st.output
  | _ => .err "Array.reverse() called on non-array." st.output

/-- `Builtins::string_split`: optional string delimiter (default a single
space), allocates the array of parts. -/
def stringSplit (recv : Literal) (args : List Literal) (st : InterpState) :
    Outcome (Literal × InterpState) :=
  match recv with
  | .str s =>
    match args with
    | [] => stringSplitWith s " " st
    | [.str d] => stringSplitWith s d st
    | [_] => .err "string.split expects a string as the delimiter" st.output
    | _ => .err "string.split takes at most one argument" st.output
  | _ => .err "string.split called on non-string" st.output
where
  stringSplitWith (s delim : String) (st : InterpState) :
      Outcome (Literal × InterpState) :=
    let (addr, st') := st.alloc ((rustSplit s delim).map Literal.str)
    .ok (.array addr, st')

/-- Dispatch of a `NativeFunction` by its debug name (the Rust side stores
a closure; the name together with the bound receiver determines it).
`intrinsics.dump` (whose output is the `{:#?}` debug formatter) and
`Math.sqrt` (irrational results) fall outside the `ℚ`/list model and are
mapped to `err`; no claim reaches either. -/
def callNative (name : String) (recv : Option Literal) (args : List Literal)
    (st : InterpState) : Outcome (Literal × InterpState) :=
  if name = "console.log" then consoleLog args st
  else if name = "intrinsics.dump" then
    .err "intrinsics.dump debug formatting is not modelled" st.output
  else if name = "intrinsics.typeof" then intrinsicsTypeof args st
  else if name = "Object.keys" then objectKeys args st
  else if name = "Math.sqrt" then
    .err "Math.sqrt is not modelled over the rationals" st.output
  else if name = "Math.max" then mathMax args st
  else if name = "Array.length" then
    match recv with
    | some rv => arrayLength rv st
    | none => .err "array.length called on non-array" st.output
  else if name = "Array.push" then
    match recv with
    | some rv => arrayPush rv args st
    | none => .err "array.push called on non-array" st.output
  else if name = "Array.pop" then
    match recv with
    | some rv => arrayPop rv args st
    | none => .err "array.push called on non-array" st.output
  else if name = "Array.join" then
    match recv with
    | some rv => arrayJoin rv args st
    | none => .err "array.join called on non-array" st.output
  else if name = "Array.reverse" then
    match recv with
    | some rv => arrayReverse rv st
    | none => .err "Array.reverse() called on non-array." st.output
  else if name = "String.split" then
    match recv with
    | some rv => stringSplit rv args st
    | none => .err "string.split called on non-string" st.output
  else
    .err ("unknown native function " ++ name) st.output

/-- The names `Builtins::array_builtin` resolves
(`length`, `push`, `pop`, `join`, `reverse`). -/
def arrayBuiltinNames : List String :=
  ["length", "push", "pop", "join", "reverse"]

/-- The global frame installed by `Builtins::load` (objects `console`,
`intrinsics`, `Object`, `Math` whose members are named native
functions). -/
def builtinsFrame : List (String × Literal) :=
  [("console", .object [("log", .nativeFunction "console.log" none)]),
   ("intrinsics", .object
     [("dump", .nativeFunction "intrinsics.dump" none),
      ("typeof", .nativeFunction "intrinsics.typeof" none)]),
   ("Object", .object [("keys", .nativeFunction "Object.keys" none)]),
   ("Math", .object
     [("sqrt", .nativeFunction "Math.sqrt" none),
      ("max", .nativeFunction "Math.max" none)])]

/-! ## Evaluator (`src/runtime/interpreter.rs`)

Every function consumes one unit of fuel per call; `timeout` models
divergence.  Signals: `do_statement` returns `Option Literal` — `some v`
is the `Return` signal.  Faithful quirks preserved from the source:
loops, `If`, `Expression`, top-level `run` all DISCARD the signal of
their sub-statement; only `Scope` propagates it.  `Continue`/`Break` and
`Increment`/`Decrement` have no interpreter arm in the source (the match
would not even be exhaustive); they are mapped to `err`. -/

/-- The first value stored under a matching key, else `Undefined`
(the ordered scan of `do_expression`, `Property` on `Object`). -/
def lookupProp : List (String × Literal) → String → Literal
  | [], _ => .undefined
  | (k, v) :: rest, name => if k = name then v else lookupProp rest name

/-- Replace the first property with the given key, keeping order
(the scan-and-replace loop of `Assignment` on `Property`); `none` when the
key is absent. -/
def replaceProp (name : String) (v : Literal) :
    List (String × Literal) → Option (List (String × Literal))
  | [] => none
  | (k, v') :: rest =>
    if k = name then some ((name, v) :: rest)
    else ((replaceProp name v rest).map (fun r => (k, v') :: r))

/-- The `match op` block of the `BinaryOp` arm of
`Interpreter::do_expression`, applied after both operands have been
evaluated (fuel feeds the structural equality of `==`/`!=`).  No arm
mutates the state. -/
def applyBinOp (fuel : Nat) (op : BinaryOperator) (lv rv : Literal)
    (st : InterpState) : Outcome (Literal × InterpState) :=
  match op with
  | .add =>
    match lv, rv with
    | .number x, .number y => .ok (.number (x + y), st)
    | .str x, .str y => .ok (.str (x ++ y), st)
    | .str x, .number y => .ok (.str (x ++ numToString y), st)
    | .number x, .str y => .ok (.str (numToString x ++ y), st)
    | _, _ => .err "Unsupported operands for Add" st.output
  | .sub =>
    match lv, rv with
    | .number x, .number y => .ok (.number (x - y), st)
    | _, _ => .err "Expected number" st.output
  | .mul =>
    match lv, rv with
    | .number x, .number y => .ok (.number (x * y), st)
    | _, _ => .err "Expected number" st.output
  | .div =>
    -- f64 division: infinities/NaN on zero divisors are outside ℚ
    match lv, rv with
    | .number x, .number y => .ok (.number (x / y), st)
    | _, _ => .err "Expected number" st.output
  | .equal =>
    match litEqF fuel st.heap lv rv with
    | some b => .ok (.boolean b, st)
    | none => .timeout
  | .notEqual =>
    match litEqF fuel st.heap lv rv with
    | some b => .ok (.boolean (!b), st)
    | none => .timeout
  | .greaterThan =>
    match lv, rv with
    | .number x, .number y => .ok (.boolean (decide (x > y)), st)
    | _, _ => .err "Expected number" st.output
  | .greaterThanOrEqual =>
    match lv, rv with
    | .number x, .number y => .ok (.boolean (decide (x ≥ y)), st)
    | _, _ => .err "Expected number" st.output
  | .lessThan =>
    match lv, rv with
    | .number x, .number y => .ok (.boolean (decide (x < y)), st)
    | _, _ => .err "Expected number" st.output
  | .lessThanOrEqual =>
    match lv, rv with
    | .number x, .number y => .ok (.boolean (decide (x ≤ y)), st)
    | _, _ => .err "Expected number" st.output
  | .binaryOr =>
    .ok (.boolean (truthyB st.heap lv || truthyB st.heap rv), st)
  | .binaryAnd =>
    .ok (.boolean (truthyB st.heap lv && truthyB st.heap rv), st)
  | .mod =>
    match lv, rv with
    | .number x, .number y => .ok (.number (ratFmod x y), st)
    | _, _ => .err "Expected number" st.output

mutual

/-- `Interpreter::do_expression`. -/
def evalExpr : Nat → InterpState → Expression → Outcome (Literal × InterpState)
  | 0, _, _ => .timeout
  | fuel + 1, st, e =>
    match e with
    | .identifier name =>
      match st.getVar name with
      | some v => .ok (v, st)
      | none => .err ("Unknown identifier " ++ name) st.output
    | .literal lit => .ok (lit, st)
    | .binaryOp l op r => do
      let (lv, st1) ← evalExpr fuel st l
      let (rv, st2) ← evalExpr fuel st1 r
      applyBinOp fuel op lv rv st2
    | .array elements => do
      let (vals, st1) ← evalExprList fuel st elements
      let (addr, st2) := st1.alloc vals
      .ok (.array addr, st2)
    | .assignment target value =>
      match target with
      | .identifier name => do
        let (res, st1) ← evalExpr fuel st value
        match st1.setVar name res with
        | some st2 => .ok (res, st2)
        | none => .err "scope stack empty" st1.output
      | .indexE t i =>
        match t with
        | .identifier name => do
          let (res, st1) ← evalExpr fuel st value
          match st1.getVar name with
          | none => .err ("Unknown identifier " ++ name) st1.output
          | some arrLit =>
            match arrLit with
            | .array addr => do
              let (idxv, st2) ← evalExpr fuel st1 i
              match idxv with
              | .number q =>
                let idx := f64AsUsize q
                match st2.heap.get? addr with
                | none => .err "dangling array" st2.output
                | some elems =>
                  if idx < elems.length then
                    let st3 := st2.heapSet addr (elems.set idx res)
                    match st3.setVar name (.array addr) with
                    | some st4 => .ok (.array addr, st4)
                    | none => .err "scope stack empty" st3.output
                  else
                    -- Vec index assignment out of range: panic
                    .err "index out of bounds" st2.output
              | _ => .err "Expected number" st2.output
            | _ => .err "Expected array" st1.output
        | _ => .err "Expected identifier" st.output
      | .property t name =>
        match t with
        | .identifier objName => do
          let (res, st1) ← evalExpr fuel st value
          match st1.getVar objName with
          | none => .err ("Unknown identifier " ++ objName) st1.output
          | some o =>
            match o with
            | .object props =>
              match replaceProp name res props with
              | some props' =>
                -- key present: re-store and return the UPDATED OBJECT
                match st1.setVar objName (.object props') with
                | some st2 => .ok (.object props', st2)
                | none => .err "scope stack empty" st1.output
              | none =>
                -- key absent: append and return the assigned value
                let props' := props ++ [(name, res)]
                match st1.setVar objName (.object props') with
                | some st2 => .ok (res, st2)
                | none => .err "scope stack empty" st1.output
            | _ => .err "Expected object" st1.output
        | _ => .err "Expected identifier" st.output
      | _ => .err "Expected identifier" st.output
    | .functionCall callee args => do
      let (func, st1) ← evalExpr fuel st callee
      match func with
      | .function fargs body =>
        if fargs.length ≠ args.length then
          .err "wrong number of arguments" st1.output
        else do
          -- parameters are bound INSIDE the freshly entered scope,
          -- each argument expression evaluated after the previous binding
          let st2 ← bindParams fuel st1.enterScope fargs args
          let (sig, st3) ← evalStmt fuel st2 body
          .ok (sig.getD .undefined, st3.exitScope)
      | .nativeFunction nm recv => do
        let (vals, st2) ← evalExprList fuel st1 args
        callNative nm recv vals st2
      | _ => .err "Expected function" st1.output
    | .indexE target idx => do
      -- the source evaluates the index BEFORE resolving the target
      let (idxv, st1) ← evalExpr fuel st idx
      match target with
      | .identifier name =>
        match st1.getVar name with
        | none => .err ("Unknown identifier " ++ name) st1.output
        | some tv =>
          match idxv with
          | .number q =>
            let idx' := f64AsUsize q
            match tv with
            | .array addr =>
              match st1.heap.get? addr with
              | none => .err "dangling array" st1.output
              | some elems =>
                match elems.get? idx' with
                | some v => .ok (v, st1)
                | none => .err "Index out of bounds" st1.output
            | _ => .err "Expected array" st1.output
          | _ => .err "Expected number" st1.output
      | _ => .err "Expected identifier" st1.output
    | .object properties => do
      let (props, st1) ← evalObjProps fuel st properties
      .ok (.object props, st1)
    | .unaryOp op expr =>
      match op with
      | .negate => do
        let (v, st1) ← evalExpr fuel st expr
        match v with
        | .number n => .ok (.number (-n), st1)
        | _ => .err "Expected number" st1.output
      | .notOp => do
        let (v, st1) ← evalExpr fuel st expr
        .ok (.boolean (!truthyB st1.heap v), st1)
    | .property target name => do
      let (tv, st1) ← evalExpr fuel st target
      match tv with
      | .object props => .ok (lookupProp props name, st1)
      | .array addr =>
        -- a bound native method capturing the receiver array
        if arrayBuiltinNames.contains name then
          .ok (.nativeFunction ("Array." ++ name) (some (.array addr)), st1)
        else .err ("Array." ++ name ++ " not found") st1.output
      | .str s =>
        if name = "split" then
          .ok (.nativeFunction ("String." ++ name) (some (.str s)), st1)
        else .err ("String." ++ name ++ " not found") st1.output
      | .number _ =>
        -- interpreter.rs calls Builtins::number_builtin, which does not
        -- exist in builtins.rs; modelled as an abort
        .err "number builtins missing" st1.output
      | _ => .err "Expected object" st1.output
    | .increment _ => .err "Increment has no interpreter arm" st.output
    | .decrement _ => .err "Decrement has no interpreter arm" st.output

/-- Argument evaluation for a native call: left to right. -/
def evalExprList : Nat → InterpState → List Expression →
    Outcome (List Literal × InterpState)
  | 0, _, _ => .timeout
  | _ + 1, st, [] => .ok ([], st)
  | fuel + 1, st, e :: rest => do
    let (v, st1) ← evalExpr fuel st e
    let (vs, st2) ← evalExprList fuel st1 rest
    .ok (v :: vs, st2)

/-- Object literal evaluation: each value expression in order. -/
def evalObjProps : Nat → InterpState → List (String × Expression) →
    Outcome (List (String × Literal) × InterpState)
  | 0, _, _ => .timeout
  | _ + 1, st, [] => .ok ([], st)
  | fuel + 1, st, (k, e) :: rest => do
    let (v, st1) ← evalExpr fuel st e
    let (vs, st2) ← evalObjProps fuel st1 rest
    .ok ((k, v) :: vs, st2)

/-- Parameter binding of a user function call: each argument expression is
evaluated in the CURRENT (already entered) scope and the parameter bound
before the next argument is evaluated, as in the source `zip` loop. -/
def bindParams : Nat → InterpState → List String → List Expression →
    Outcome InterpState
  | 0, _, _, _ => .timeout
  | fuel + 1, st, params, args =>
    match params, args with
    | p :: ps, a :: rest => do
      let (v, st1) ← evalExpr fuel st a
      match st1.setVar p v with
      | some st2 => bindParams fuel st2 ps rest
      | none => .err "scope stack empty" st1.output
    | _, _ => .ok st

/-- `Interpreter::do_statement`.  The returned `Option Literal` is the
`Return` signal. -/
def evalStmt : Nat → InterpState → Statement → Outcome (Option Literal × InterpState)
  | 0, _, _ => .timeout
  | fuel + 1, st, s =>
    match s with
    | .forStmt init cond update body => do
      let st1 := st.enterScope
      let st2 ← (match init with
                 | some i => do
                   -- the init signal is discarded by the source
                   let (_sig, s') ← evalStmt fuel st1 i
                   pure s'
                 | none => pure st1)
      let st3 ← evalForLoop fuel st2 cond update body
      .ok (none, st3.exitScope)
    | .scope statements => evalScopeBody fuel st.enterScope statements
    | .ifStmt cond cons alt => do
      let (cv, st1) ← evalExpr fuel st cond
      if truthyB st1.heap cv then do
        -- the branch signal is discarded by the source
        let (_sig, st2) ← evalStmt fuel st1 cons
        .ok (none, st2)
      else
        match alt with
        | some a => do
          let (_sig, st2) ← evalStmt fuel st1 a
          .ok (none, st2)
        | none => .ok (none, st1)
    | .function name args body =>
      match st.setVar name (.function args body) with
      | some st1 => .ok (none, st1)
      | none => .err "scope stack empty" st.output
    | .expression expr => do
      let (_v, st1) ← evalExpr fuel st expr
      .ok (none, st1)
    | .letStmt name value => do
      let (res, st1) ← evalExpr fuel st value
      match st1.setVar name res with
      | some st2 => .ok (none, st2)
      | none => .err "scope stack empty" st1.output
    | .ret expr => do
      let (v, st1) ← evalExpr fuel st expr
      .ok (some v, st1)
    | .whileStmt cond body => do
      let st1 ← evalWhileLoop fuel st cond body
      .ok (none, st1)
    | .continueStmt => .err "Continue has no interpreter arm" st.output
    | .breakStmt => .err "Break has no interpreter arm" st.output

/-- The body of a `Scope` statement: the only construct that PROPAGATES a
`Return` signal (popping its frame first on both paths). -/
def evalScopeBody : Nat → InterpState → List Statement →
    Outcome (Option Literal × InterpState)
  | 0, _, _ => .timeout
  | _ + 1, st, [] => .ok (none, st.exitScope)
  | fuel + 1, st, s :: rest => do
    let (sig, st1) ← evalStmt fuel st s
    match sig with
    | some v => .ok (some v, st1.exitScope)
    | none => evalScopeBody fuel st1 rest

/-- The `while` loop of the `While` arm: condition, then body whose signal
is DISCARDED (`self.do_statement(*body.clone());` drops the result). -/
def evalWhileLoop : Nat → InterpState → Expression → Statement →
    Outcome InterpState
  | 0, _, _, _ => .timeout
  | fuel + 1, st, cond, body => do
    let (cv, st1) ← evalExpr fuel st cond
    if truthyB st1.heap cv then do
      let (_sig, st2) ← evalStmt fuel st1 body
      evalWhileLoop fuel st2 cond body
    else .ok st1

/-- The `loop` of the `For` arm: optional condition (a missing condition
never breaks), body with its signal DISCARDED, optional update. -/
def evalForLoop : Nat → InterpState → Option Expression → Option Expression →
    Statement → Outcome InterpState
  | 0, _, _, _, _ => .timeout
  | fuel + 1, st, cond, update, body => do
    let (go, st1) ← (match cond with
                     | some c => do
                       let (cv, st') ← evalExpr fuel st c
                       pure (truthyB st'.heap cv, st')
                     | none => pure (true, st) :
                       Outcome (Bool × InterpState))
    if go then do
      let (_sig, st2) ← evalStmt fuel st1 body
      let st3 ← (match update with
                 | some u => do
                   let (_uv, st') ← evalExpr fuel st2 u
                   pure st'
                 | none => pure st2)
      evalForLoop fuel st3 cond update body
    else .ok st1

end

/-- The starting state: one global frame holding the builtins
(`Interpreter::new` + `Builtins::load`). -/
def initState : InterpState :=
  { scopes := [builtinsFrame], heap := [], output := [] }

/-- The statement loop of `Interpreter::run`: top-level signals are
discarded. -/
def evalProgramGo : Nat → InterpState → List Statement → Outcome InterpState
  | 0, _, _ => .timeout
  | _ + 1, st, [] => .ok st
  | fuel + 1, st, s :: rest => do
    let (_sig, st1) ← evalStmt fuel st s
    evalProgramGo fuel st1 rest

/-- Run a program from the initial state. -/
def runProgram (fuel : Nat) (stmts : List Statement) : Outcome InterpState :=
  evalProgramGo fuel initState stmts

/-! ## Observation predicates and concrete claim inputs -/

/-- The value produced by a successful expression evaluation. -/
def okValue : Outcome (Literal × InterpState) → Option Literal
  | .ok (v, _) => some v
  | _ => none

/-- Does the run terminate successfully with exactly this printed
output?  (`Bool`-valued so bounded fuel searches are decidable.) -/
def isOkWithOutput (o : Outcome InterpState) (out : List String) : Bool :=
  match o with
  | .ok st => st.output == out
  | _ => false

/-- "The program prints `out`": some fuel suffices for a successful run
whose output is `out`. -/
def ProgramPrints (stmts : List Statement) (out : List String) : Prop :=
  ∃ fuel, isOkWithOutput (runProgram fuel stmts) out = true

/-- "The program aborts after printing `out`": some fuel suffices to reach
the panic, with `out` printed before it. -/
def ProgramAbortsWith (stmts : List Statement) (out : List String) : Prop :=
  ∃ fuel msg, runProgram fuel stmts = .err msg out

/-- "Evaluating `stmt` from `st` surfaces a `Return` signal", the way an
enclosing function call would observe it. -/
def SignalPropagated (stmt : Statement) (st : InterpState) : Prop :=
  ∃ fuel v st', evalStmt fuel st stmt = .ok (some v, st')

/-- `Bool` view of "the statement evaluation produced a `Return`
signal". -/
def isOkReturn (o : Outcome (Option Literal × InterpState)) : Bool :=
  match o with
  | .ok (some _, _) => true
  | _ => false

/-- The thirteen two-character operators named by the spec, with the
token each should lex to. -/
def lexTwoCharOps : List ((Char × Char) × Token) :=
  [(('=', '='), .equalEqual), (('!', '='), .bangEqual),
   (('<', '='), .lessEqual), (('>', '='), .greaterEqual),
   (('+', '='), .plusEqual), (('-', '='), .minusEqual),
   (('*', '='), .starEqual), (('/', '='), .slashEqual),
   (('%', '='), .percentEqual), (('&', '&'), .ampAmp),
   (('|', '|'), .pipePipe), (('+', '+'), .plusPlus),
   (('-', '-'), .minusMinus)]

/-- The subset of `lexTwoCharOps` the lexer actually consumes in full
(both characters) while emitting the single corresponding token. -/
def lexGoodTwoCharOps : List ((Char × Char) × Token) :=
  [(('=', '='), .equalEqual), (('!', '='), .bangEqual),
   (('<', '='), .lessEqual), (('>', '='), .greaterEqual),
   (('+', '='), .plusEqual), (('-', '='), .minusEqual),
   (('*', '='), .starEqual)]

/-- The lexing discipline claimed by the spec: at any occurrence of a
two-character operator, one loop iteration consumes both characters and
emits exactly the corresponding token. -/
def LexerConsumesTwoCharOps : Prop :=
  ∀ (src : List Char) (pos : Nat) (c1 c2 : Char) (tok : Token),
    ((c1, c2), tok) ∈ lexTwoCharOps →
    src.get? pos = some c1 →
    src.get? (pos + 1) = some c2 →
    lexStep src pos c1 = some (some tok, pos + 2)

/-- A state with a single empty global frame (used by concrete
counterexamples that need no builtins). -/
def emptyGlobal : InterpState :=
  { scopes := [[]], heap := [], output := [] }

/-- The parse of `for (let i = 0; i < 2; i = i + 1) return 42;` — a `For`
statement whose body produces a `Return` signal on every iteration. -/
def c1For : Statement :=
  .forStmt
    (some (.letStmt "i" (.literal (.number 0))))
    (some (.binaryOp (.identifier "i") .lessThan (.literal (.number 2))))
    (some (.assignment (.identifier "i")
      (.binaryOp (.identifier "i") .add (.literal (.number 1)))))
    (.ret (.literal (.number 42)))

/-- The parse of
`let a = [1, 2, 3]; a.push(4); console.log(a.length); console.log(a.join(","));`. -/
def c2Program : List Statement :=
  [.letStmt "a" (.array
     [.literal (.number 1), .literal (.number 2), .literal (.number 3)]),
   .expression (.functionCall (.property (.identifier "a") "push")
     [.literal (.number 4)]),
   .expression (.functionCall (.property (.identifier "console") "log")
     [.property (.identifier "a") "length"]),
   .expression (.functionCall (.property (.identifier "console") "log")
     [.functionCall (.property (.identifier "a") "join")
       [.literal (.str ",")]])]

/-- The parse of `let x = 10; let y = x + 5; console.log(y);`. -/
def c4Program : AST :=
  ⟨[.letStmt "x" (.literal (.number 10)),
    .letStmt "y" (.binaryOp (.identifier "x") .add (.literal (.number 5))),
    .expression (.functionCall (.property (.identifier "console") "log")
      [.identifier "y"])]⟩

/-- The parse of `(1 + 2) + 3;`, an AST with a nested foldable
subexpression. -/
def c5Ast : AST :=
  ⟨[.expression (.binaryOp
     (.binaryOp (.literal (.number 1)) .add (.literal (.number 2)))
     .add (.literal (.number 3)))]⟩

/-- A state binding `a` to the two-element array `[1, 2]` (heap address
0). -/
def c7State : InterpState :=
  { scopes := [[("a", .array 0)]], heap := [[.number 1, .number 2]],
    output := [] }

/-- The index assignment `a[0] = 9` (target an index, value `9`). -/
def c6IndexAssign : Expression :=
  .assignment (.indexE (.identifier "a") (.literal (.number 0)))
    (.literal (.number 9))

/-- A state binding `o` to the one-key object `{ k: 1 }`. -/
def c6ObjState : InterpState :=
  { scopes := [[("o", .object [("k", .number 1)])]], heap := [],
    output := [] }

/-! ## Supporting lemmas -/

theorem Outcome.bind_eq_ok {α β : Type} {x : Outcome α} {f : α → Outcome β} {b : β} :
    x >>= f = .ok b ↔ ∃ a, x = .ok a ∧ f a = .ok b := by
  cases x <;> simp [Bind.bind, Outcome.bind]

theorem Outcome.pure_eq_ok {α : Type} {a : α} : (pure a : Outcome α) = .ok a := rfl

theorem InterpState.setVar_scopes_length {st st' : InterpState} {n : String}
    {v : Literal} (h : st.setVar n v = some st') :
    st'.scopes.length = st.scopes.length := by
  unfold InterpState.setVar at h
  cases hs : st.scopes with
  | nil => rw [hs] at h; exact absurd h (by simp)
  | cons f rest => rw [hs] at h; cases h; simp [hs]

theorem consoleLog_scopes {a : List Literal} {st : InterpState} {v : Literal}
    {st' : InterpState} (h : consoleLog a st = .ok (v, st')) :
    st'.scopes = st.scopes := by
  unfold consoleLog at h
  repeat' split at h
  all_goals (try cases h)
  all_goals rfl

theorem intrinsicsTypeof_scopes {a : List Literal} {st : InterpState}
    {v : Literal} {st' : InterpState} (h : intrinsicsTypeof a st = .ok (v, st')) :
    st'.scopes = st.scopes := by
  unfold intrinsicsTypeof at h
  repeat' split at h
  all_goals (try cases h)
  all_goals rfl

theorem objectKeys_scopes {a : List Literal} {st : InterpState} {v : Literal}
    {st' : InterpState} (h : objectKeys a st = .ok (v, st')) :
    st'.scopes = st.scopes := by
  unfold objectKeys at h
  repeat' split at h
  all_goals (try cases h)
  all_goals (first
    | rfl
    | (rename_i heq; simp [InterpState.alloc] at heq;
       obtain ⟨-, rfl⟩ := heq; rfl))

theorem mathMax_scopes {a : List Literal} {st : InterpState} {v : Literal}
    {st' : InterpState} (h : mathMax a st = .ok (v, st')) :
    st'.scopes = st.scopes := by
  unfold mathMax at h
  repeat' split at h
  all_goals (try cases h)
  all_goals rfl

theorem arrayLength_scopes {rv : Literal} {st : InterpState} {v : Literal}
    {st' : InterpState} (h : arrayLength rv st = .ok (v, st')) :
    st'.scopes = st.scopes := by
  unfold arrayLength at h
  repeat' split at h
  all_goals (try cases h)
  all_goals rfl

theorem arrayPush_scopes {rv : Literal} {a : List Literal} {st : InterpState}
    {v : Literal} {st' : InterpState} (h : arrayPush rv a st = .ok (v, st')) :
    st'.scopes = st.scopes := by
  unfold arrayPush at h
  repeat' split at h
  all_goals (try cases h)
  all_goals rfl

theorem arrayPop_scopes {rv : Literal} {a : List Literal} {st : InterpState}
    {v : Literal} {st' : InterpState} (h : arrayPop rv a st = .ok (v, st')) :
    st'.scopes = st.scopes := by
  unfold arrayPop at h
  repeat' split at h
  all_goals (try cases h)
  all_goals rfl

theorem arrayJoin_scopes {rv : Literal} {a : List Literal} {st : InterpState}
    {v : Literal} {st' : InterpState} (h : arrayJoin rv a st = .ok (v, st')) :
    st'.scopes = st.scopes := by
  unfold arrayJoin arrayJoin.arrayJoinWith at h
  repeat' split at h
  all_goals (try cases h)
  all_goals rfl

theorem arrayReverse_scopes {rv : Literal} {st : InterpState} {v : Literal}
    {st' : InterpState} (h : arrayReverse rv st = .ok (v, st')) :
    st'.scopes = st.scopes := by
  unfold arrayReverse at h
  repeat' split at h
  all_goals (try cases h)
  all_goals rfl

theorem stringSplit_scopes {rv : Literal} {a : List Literal} {st : InterpState}
    {v : Literal} {st' : InterpState} (h : stringSplit rv a st = .ok (v, st')) :
    st'.scopes = st.scopes := by
  unfold stringSplit stringSplit.stringSplitWith at h
  repeat' split at h
  all_goals (try cases h)
  all_goals (first
    | rfl
    | (rename_i heq; simp [InterpState.alloc] at heq;
       obtain ⟨-, rfl⟩ := heq; rfl))

/-- No native call touches the scope stack (builtins act on heap and
output only). -/
theorem callNative_scopes {n : String} {r : Option Literal} {a : List Literal}
    {st : InterpState} {v : Literal} {st' : InterpState}
    (h : callNative n r a st = .ok (v, st')) : st'.scopes = st.scopes := by
  unfold callNative at h
  by_cases h1 : n = "console.log"
  · rw [if_pos h1] at h; exact consoleLog_scopes h
  rw [if_neg h1] at h
  by_cases h2 : n = "intrinsics.dump"
  · rw [if_pos h2] at h; exact Outcome.noConfusion h
  rw [if_neg h2] at h
  by_cases h3 : n = "intrinsics.typeof"
  · rw [if_pos h3] at h; exact intrinsicsTypeof_scopes h
  rw [if_neg h3] at h
  by_cases h4 : n = "Object.keys"
  · rw [if_pos h4] at h; exact objectKeys_scopes h
  rw [if_neg h4] at h
  by_cases h5 : n = "Math.sqrt"
  · rw [if_pos h5] at h; exact Outcome.noConfusion h
  rw [if_neg h5] at h
  by_cases h6 : n = "Math.max"
  · rw [if_pos h6] at h; exact mathMax_scopes h
  rw [if_neg h6] at h
  by_cases h7 : n = "Array.length"
  · rw [if_pos h7] at h
    cases r with
    | some rv => exact arrayLength_scopes h
    | none => exact Outcome.noConfusion h
  rw [if_neg h7] at h
  by_cases h8 : n = "Array.push"
  · rw [if_pos h8] at h
    cases r with
    | some rv => exact arrayPush_scopes h
    | none => exact Outcome.noConfusion h
  rw [if_neg h8] at h
  by_cases h9 : n = "Array.pop"
  · rw [if_pos h9] at h
    cases r with
    | some rv => exact arrayPop_scopes h
    | none => exact Outcome.noConfusion h
  rw [if_neg h9] at h
  by_cases h10 : n = "Array.join"
  · rw [if_pos h10] at h
    cases r with
    | some rv => exact arrayJoin_scopes h
    | none => exact Outcome.noConfusion h
  rw [if_neg h10] at h
  by_cases h11 : n = "Array.reverse"
  · rw [if_pos h11] at h
    cases r with
    | some rv => exact arrayReverse_scopes h
    | none => exact Outcome.noConfusion h
  rw [if_neg h11] at h
  by_cases h12 : n = "String.split"
  · rw [if_pos h12] at h
    cases r with
    | some rv => exact stringSplit_scopes h
    | none => exact Outcome.noConfusion h
  rw [if_neg h12] at h
  exact Outcome.noConfusion h

/-- `applyBinOp` never changes the state. -/
theorem applyBinOp_state {fuel : Nat} {op : BinaryOperator} {lv rv : Literal}
    {st : InterpState} {v : Literal} {st' : InterpState}
    (h : applyBinOp fuel op lv rv st = .ok (v, st')) : st' = st := by
  unfold applyBinOp at h
  repeat' split at h
  all_goals (try cases h)
  all_goals rfl

/-- Scope-stack discipline of the whole evaluator, by induction on fuel:
every successful evaluation restores the scope-stack depth it started
with (`evalScopeBody` runs on an already-entered stack and pops it). -/
theorem evalDepth : ∀ fuel : Nat,
    (∀ st e p, evalExpr fuel st e = .ok p → p.2.scopes.length = st.scopes.length) ∧
    (∀ st es p, evalExprList fuel st es = .ok p → p.2.scopes.length = st.scopes.length) ∧
    (∀ st ps p, evalObjProps fuel st ps = .ok p → p.2.scopes.length = st.scopes.length) ∧
    (∀ st ns as p, bindParams fuel st ns as = .ok p → p.scopes.length = st.scopes.length) ∧
    (∀ st s p, evalStmt fuel st s = .ok p → p.2.scopes.length = st.scopes.length) ∧
    (∀ st l p, evalScopeBody fuel st l = .ok p → p.2.scopes.length = st.scopes.length - 1) ∧
    (∀ st c b p, evalWhileLoop fuel st c b = .ok p → p.scopes.length = st.scopes.length) ∧
    (∀ st c u b p, evalForLoop fuel st c u b = .ok p → p.scopes.length = st.scopes.length)
  | 0 =>
    ⟨fun _ _ _ h => Outcome.noConfusion h, fun _ _ _ h => Outcome.noConfusion h,
     fun _ _ _ h => Outcome.noConfusion h, fun _ _ _ _ h => Outcome.noConfusion h,
     fun _ _ _ h => Outcome.noConfusion h, fun _ _ _ h => Outcome.noConfusion h,
     fun _ _ _ _ h => Outcome.noConfusion h, fun _ _ _ _ _ h => Outcome.noConfusion h⟩
  | fuel + 1 => by
    obtain ⟨ihE, ihEL, ihOP, ihBP, ihS, ihSB, ihWL, ihFL⟩ := evalDepth fuel
    refine ⟨?_, ?_, ?_, ?_, ?_, ?_, ?_, ?_⟩
    · -- evalExpr
      intro st e p h
      obtain ⟨pv, pst⟩ := p
      cases e with
      | literal lit => cases h; rfl
      | identifier name =>
        simp only [evalExpr] at h
        split at h
        · cases h; rfl
        · exact Outcome.noConfusion h
      | binaryOp l op r =>
        simp only [evalExpr] at h
        obtain ⟨⟨lv, st1⟩, h1, h⟩ := Outcome.bind_eq_ok.mp h
        obtain ⟨⟨rv, st2⟩, h2, h⟩ := Outcome.bind_eq_ok.mp h
        have e3 := applyBinOp_state h
        subst e3
        exact (ihE st1 r _ h2).trans (ihE st l _ h1)
      | array elements =>
        simp only [evalExpr, InterpState.alloc] at h
        obtain ⟨⟨vals, st1⟩, h1, h⟩ := Outcome.bind_eq_ok.mp h
        cases h
        exact ihEL st elements _ h1
      | object properties =>
        simp only [evalExpr] at h
        obtain ⟨⟨vals, st1⟩, h1, h⟩ := Outcome.bind_eq_ok.mp h
        cases h
        exact ihOP st properties _ h1
      | unaryOp op expr =>
        simp only [evalExpr] at h
        cases op with
        | negate =>
          obtain ⟨⟨v, st1⟩, h1, h⟩ := Outcome.bind_eq_ok.mp h
          split at h
          · cases h; exact ihE st expr ⟨v, st1⟩ h1
          · exact Outcome.noConfusion h
        | notOp =>
          obtain ⟨⟨v, st1⟩, h1, h⟩ := Outcome.bind_eq_ok.mp h
          cases h; exact ihE st expr ⟨v, st1⟩ h1
      | increment t => exact Outcome.noConfusion h
      | decrement t => exact Outcome.noConfusion h
      | property target name =>
        simp only [evalExpr] at h
        obtain ⟨⟨tv, st1⟩, h1, h⟩ := Outcome.bind_eq_ok.mp h
        have e1 := ihE st target _ h1
        split at h
        · cases h; exact e1
        · split at h
          · cases h; exact e1
          · exact Outcome.noConfusion h
        · split at h
          · cases h; exact e1
          · exact Outcome.noConfusion h
        · exact Outcome.noConfusion h
        · exact Outcome.noConfusion h
      | indexE target idx =>
        simp only [evalExpr] at h
        obtain ⟨⟨idxv, st1⟩, h1, h⟩ := Outcome.bind_eq_ok.mp h
        have e1 := ihE st idx _ h1
        repeat' split at h
        all_goals (try exact Outcome.noConfusion h)
        all_goals (cases h; exact e1)
      | assignment target value =>
        simp only [evalExpr] at h
        cases target
        case identifier name =>
          obtain ⟨⟨res, st1⟩, h1, h⟩ := Outcome.bind_eq_ok.mp h
          split at h
          · rename_i st2 hset
            cases h
            exact (InterpState.setVar_scopes_length hset).trans (ihE st value ⟨res, st1⟩ h1)
          · exact Outcome.noConfusion h
        case indexE t i =>
          cases t
          case identifier name =>
            obtain ⟨⟨res, st1⟩, h1, h⟩ := Outcome.bind_eq_ok.mp h
            have e1 := ihE st value _ h1
            split at h
            · exact Outcome.noConfusion h
            · rename_i arrLit hget
              split at h
              all_goals (try exact Outcome.noConfusion h)
              rename_i addr
              obtain ⟨⟨idxv, st2⟩, h2, h⟩ := Outcome.bind_eq_ok.mp h
              have e2 := ihE st1 i _ h2
              split at h
              all_goals (try exact Outcome.noConfusion h)
              rename_i q
              split at h
              all_goals (try exact Outcome.noConfusion h)
              rename_i elems hheap
              split at h
              · split at h
                · rename_i st4 hset
                  cases h
                  have e3 := InterpState.setVar_scopes_length hset
                  simp only [InterpState.heapSet] at e3
                  show pst.scopes.length = st.scopes.length
                  have e4 : st2.scopes.length = st1.scopes.length :=
                    ihE st1 i ⟨idxv, st2⟩ h2
                  have e5 : st1.scopes.length = st.scopes.length :=
                    ihE st value ⟨res, st1⟩ h1
                  omega
                · exact Outcome.noConfusion h
              · exact Outcome.noConfusion h
          all_goals exact Outcome.noConfusion h
        case property t nm =>
          cases t
          case identifier objName =>
            obtain ⟨⟨res, st1⟩, h1, h⟩ := Outcome.bind_eq_ok.mp h
            have e1 := ihE st value _ h1
            split at h
            · exact Outcome.noConfusion h
            · rename_i o hget
              split at h
              all_goals (try exact Outcome.noConfusion h)
              rename_i props
              split at h
              · split at h
                · rename_i st2 hset
                  cases h
                  exact (InterpState.setVar_scopes_length hset).trans e1
                · exact Outcome.noConfusion h
              · split at h
                · rename_i st2 hset
                  cases h
                  exact (InterpState.setVar_scopes_length hset).trans e1
                · exact Outcome.noConfusion h
          all_goals exact Outcome.noConfusion h
        all_goals exact Outcome.noConfusion h
      | functionCall callee args =>
        simp only [evalExpr] at h
        obtain ⟨⟨func, st1⟩, h1, h⟩ := Outcome.bind_eq_ok.mp h
        have e1 := ihE st callee _ h1
        split at h
        · -- user function
          split at h
          · exact Outcome.noConfusion h
          · obtain ⟨st2, h2, h⟩ := Outcome.bind_eq_ok.mp h
            obtain ⟨⟨sig, st3⟩, h3, h⟩ := Outcome.bind_eq_ok.mp h
            cases h
            have e0 : st1.scopes.length = st.scopes.length :=
              ihE st callee ⟨func, st1⟩ h1
            have e2 : st2.scopes.length = st1.enterScope.scopes.length :=
              ihBP st1.enterScope _ _ _ h2
            have e3 : st3.scopes.length = st2.scopes.length := ihS st2 _ ⟨sig, st3⟩ h3
            show st3.exitScope.scopes.length = st.scopes.length
            simp only [InterpState.exitScope, List.length_tail]
            simp only [InterpState.enterScope, List.length_cons] at e2
            omega
        · -- native function
          obtain ⟨⟨vals, st2⟩, h2, h⟩ := Outcome.bind_eq_ok.mp h
          have e0 : st1.scopes.length = st.scopes.length :=
            ihE st callee ⟨func, st1⟩ h1
          have e2 : st2.scopes.length = st1.scopes.length := ihEL st1 args ⟨vals, st2⟩ h2
          have e3 : pst.scopes = st2.scopes := callNative_scopes h
          rw [show pst.scopes.length = st2.scopes.length from by rw [e3]]
          omega
        · exact Outcome.noConfusion h
    · -- evalExprList
      intro st es p h
      cases es with
      | nil => cases h; rfl
      | cons e rest =>
        simp only [evalExprList] at h
        obtain ⟨⟨v, st1⟩, h1, h⟩ := Outcome.bind_eq_ok.mp h
        obtain ⟨⟨vs, st2⟩, h2, h⟩ := Outcome.bind_eq_ok.mp h
        cases h
        exact (ihEL st1 rest _ h2).trans (ihE st e _ h1)
    · -- evalObjProps
      intro st ps p h
      cases ps with
      | nil => cases h; rfl
      | cons kv rest =>
        obtain ⟨k, e⟩ := kv
        simp only [evalObjProps] at h
        obtain ⟨⟨v, st1⟩, h1, h⟩ := Outcome.bind_eq_ok.mp h
        obtain ⟨⟨vs, st2⟩, h2, h⟩ := Outcome.bind_eq_ok.mp h
        cases h
        exact (ihOP st1 rest _ h2).trans (ihE st e _ h1)
    · -- bindParams
      intro st ns as p h
      simp only [bindParams] at h
      split at h
      · rename_i pn ps a rest
        obtain ⟨⟨v, st1⟩, h1, h⟩ := Outcome.bind_eq_ok.mp h
        split at h
        · rename_i st2 hset
          exact (ihBP st2 ps rest _ h).trans
            ((InterpState.setVar_scopes_length hset).trans (ihE st a _ h1))
        · exact Outcome.noConfusion h
      · cases h; rfl
    · -- evalStmt
      intro st s p h
      obtain ⟨psig, pst⟩ := p
      cases s with
      | expression expr =>
        simp only [evalStmt] at h
        obtain ⟨⟨v, st1⟩, h1, h⟩ := Outcome.bind_eq_ok.mp h
        cases h
        exact ihE st expr ⟨v, st1⟩ h1
      | ret expr =>
        simp only [evalStmt] at h
        obtain ⟨⟨v, st1⟩, h1, h⟩ := Outcome.bind_eq_ok.mp h
        cases h
        exact ihE st expr ⟨v, st1⟩ h1
      | continueStmt => exact Outcome.noConfusion h
      | breakStmt => exact Outcome.noConfusion h
      | letStmt name value =>
        simp only [evalStmt] at h
        obtain ⟨⟨res, st1⟩, h1, h⟩ := Outcome.bind_eq_ok.mp h
        split at h
        · rename_i st2 hset
          cases h
          exact (InterpState.setVar_scopes_length hset).trans
            (ihE st value ⟨res, st1⟩ h1)
        · exact Outcome.noConfusion h
      | function name args body =>
        simp only [evalStmt] at h
        split at h
        · rename_i st1 hset
          cases h
          exact InterpState.setVar_scopes_length hset
        · exact Outcome.noConfusion h
      | ifStmt cond cons alt =>
        simp only [evalStmt] at h
        obtain ⟨⟨cv, st1⟩, h1, h⟩ := Outcome.bind_eq_ok.mp h
        have e1 : st1.scopes.length = st.scopes.length := ihE st cond ⟨cv, st1⟩ h1
        split at h
        · obtain ⟨⟨sig, st2⟩, h2, h⟩ := Outcome.bind_eq_ok.mp h
          cases h
          have e2 : st2.scopes.length = st1.scopes.length := ihS st1 cons ⟨sig, st2⟩ h2
          show st2.scopes.length = st.scopes.length
          omega
        · split at h
          · rename_i a halt
            obtain ⟨⟨sig, st2⟩, h2, h⟩ := Outcome.bind_eq_ok.mp h
            cases h
            have e2 : st2.scopes.length = st1.scopes.length := ihS st1 a ⟨sig, st2⟩ h2
            show st2.scopes.length = st.scopes.length
            omega
          · cases h
            exact e1
      | scope statements =>
        simp only [evalStmt] at h
        have e1 : pst.scopes.length = st.enterScope.scopes.length - 1 :=
          ihSB st.enterScope statements ⟨psig, pst⟩ h
        simp only [InterpState.enterScope, List.length_cons] at e1
        show pst.scopes.length = st.scopes.length
        omega
      | whileStmt cond body =>
        simp only [evalStmt] at h
        obtain ⟨st1, h1, h⟩ := Outcome.bind_eq_ok.mp h
        cases h
        exact ihWL st cond body _ h1
      | forStmt init cond update body =>
        simp only [evalStmt] at h
        obtain ⟨st2, h2, h⟩ := Outcome.bind_eq_ok.mp h
        obtain ⟨st3, h3, h⟩ := Outcome.bind_eq_ok.mp h
        cases h
        have e3 : st3.scopes.length = st2.scopes.length :=
          ihFL st2 cond update body st3 h3
        have e2 : st2.scopes.length = st.scopes.length + 1 := by
          cases init with
          | none =>
            cases h2
            simp [InterpState.enterScope]
          | some i =>
            simp only at h2
            obtain ⟨⟨sig, s1⟩, hi, h2⟩ := Outcome.bind_eq_ok.mp h2
            cases h2
            have := ihS st.enterScope i ⟨sig, s1⟩ hi
            simp only [InterpState.enterScope, List.length_cons] at this
            exact this
        show st3.exitScope.scopes.length = st.scopes.length
        simp only [InterpState.exitScope, List.length_tail]
        omega
    · -- evalScopeBody
      intro st l p h
      cases l with
      | nil => cases h; simp [InterpState.exitScope]
      | cons s rest =>
        simp only [evalScopeBody] at h
        obtain ⟨⟨sig, st1⟩, h1, h⟩ := Outcome.bind_eq_ok.mp h
        have e1 := ihS st s _ h1
        cases sig with
        | some v =>
          cases h
          simp [InterpState.exitScope, e1]
        | none =>
          have e2 := ihSB st1 rest _ h
          rw [e2, e1]
    · -- evalWhileLoop
      intro st c b p h
      simp only [evalWhileLoop] at h
      obtain ⟨⟨cv, st1⟩, h1, h⟩ := Outcome.bind_eq_ok.mp h
      have e1 := ihE st c _ h1
      split at h
      · obtain ⟨⟨sig, st2⟩, h2, h⟩ := Outcome.bind_eq_ok.mp h
        have e2 := ihS st1 b _ h2
        have e3 := ihWL st2 c b _ h
        rw [e3, e2, e1]
      · cases h; exact e1
    · -- evalForLoop
      intro st c u b p h
      simp only [evalForLoop] at h
      obtain ⟨⟨go, st1⟩, hc, h⟩ := Outcome.bind_eq_ok.mp h
      have e1 : st1.scopes.length = st.scopes.length := by
        cases c with
        | none => cases hc; rfl
        | some ce =>
          simp only at hc
          obtain ⟨⟨cv, s1⟩, hcv, hc⟩ := Outcome.bind_eq_ok.mp hc
          cases hc
          exact ihE st ce ⟨cv, s1⟩ hcv
      split at h
      · obtain ⟨⟨sig, st2⟩, hb, h⟩ := Outcome.bind_eq_ok.mp h
        obtain ⟨st3, hu, h⟩ := Outcome.bind_eq_ok.mp h
        have e2 : st2.scopes.length = st1.scopes.length := ihS st1 b ⟨sig, st2⟩ hb
        have e3 : st3.scopes.length = st2.scopes.length := by
          cases u with
          | none => cases hu; rfl
          | some ue =>
            simp only at hu
            obtain ⟨⟨uv, s1⟩, huv, hu⟩ := Outcome.bind_eq_ok.mp hu
            cases hu
            exact ihE st2 ue ⟨uv, s1⟩ huv
        have e4 : p.scopes.length = st3.scopes.length := ihFL st3 c u b p h
        omega
      · cases h
        exact e1


/-! ### The rewrite walk of `constant_value_propagation` is the identity

The discovery walk being dead code, the rewrite walk always runs with the
constants closed and every frame empty, and then rewrites nothing. -/

theorem findSome_lookup_empty (name : String) :
    ∀ (l : List (List (String × ConstVal))), (∀ f ∈ l, f = []) →
      l.findSome? (fun f => f.lookup name) = none
  | [], _ => rfl
  | f :: rest, h => by
    have hf : f = [] := h f (by simp)
    subst hf
    simp only [List.findSome?_cons, List.lookup_nil]
    exact findSome_lookup_empty name rest (fun g hg => h g (by simp [hg]))

theorem getConstant_empty {s : OptState} (hE : ∀ f ∈ s.constants, f = [])
    (name : String) : s.getConstant name = none :=
  findSome_lookup_empty name s.constants hE

mutual

theorem propagateExpression_id : ∀ (s : OptState), s.allowNew = false →
    (∀ f ∈ s.constants, f = []) → ∀ e, propagateExpression s e = (s, e)
  | s, hA, hE, .literal l => by simp [propagateExpression]
  | s, hA, hE, .identifier id => by
    simp [propagateExpression, getConstant_empty hE]
  | s, hA, hE, .object properties => by
    simp [propagateExpression, propagateProps_id s hA hE properties]
  | s, hA, hE, .array elements => by
    simp [propagateExpression, propagateExprList_id s hA hE elements]
  | s, hA, hE, .increment t => by simp [propagateExpression]
  | s, hA, hE, .decrement t => by simp [propagateExpression]
  | s, hA, hE, .binaryOp l op r => by
    simp [propagateExpression, propagateExpression_id s hA hE l,
      propagateExpression_id s hA hE r]
  | s, hA, hE, .unaryOp op e => by
    simp [propagateExpression, propagateExpression_id s hA hE e]
  | s, hA, hE, .functionCall callee args => by simp [propagateExpression]
  | s, hA, hE, .assignment target value => by
    cases target <;>
      simp [propagateExpression, propagateExpression_id s hA hE value,
        getConstant_empty hE]
  | s, hA, hE, .indexE t i => by simp [propagateExpression]
  | s, hA, hE, .property t n => by simp [propagateExpression]

theorem propagateProps_id : ∀ (s : OptState), s.allowNew = false →
    (∀ f ∈ s.constants, f = []) → ∀ ps, propagateProps s ps = (s, ps)
  | s, hA, hE, [] => by simp [propagateProps]
  | s, hA, hE, (k, v) :: rest => by
    simp [propagateProps, propagateExpression_id s hA hE v,
      propagateProps_id s hA hE rest]

theorem propagateExprList_id : ∀ (s : OptState), s.allowNew = false →
    (∀ f ∈ s.constants, f = []) → ∀ es, propagateExprList s es = (s, es)
  | s, hA, hE, [] => by simp [propagateExprList]
  | s, hA, hE, e :: rest => by
    simp [propagateExprList, propagateExpression_id s hA hE e,
      propagateExprList_id s hA hE rest]

theorem propagateStatement_id : ∀ (s : OptState), s.allowNew = false →
    (∀ f ∈ s.constants, f = []) → ∀ stmt, propagateStatement s stmt = (s, stmt)
  | s, hA, hE, .expression e => by
    simp [propagateStatement, propagateExpression_id s hA hE e]
  | s, hA, hE, .ret e => by
    simp [propagateStatement, propagateExpression_id s hA hE e]
  | s, hA, hE, .continueStmt => by simp [propagateStatement]
  | s, hA, hE, .breakStmt => by simp [propagateStatement]
  | s, hA, hE, .ifStmt c t a => by
    simp [propagateStatement, propagateExpression_id s hA hE c,
      propagateStatement_id s hA hE t, propagateOptStmt_id s hA hE a]
  | s, hA, hE, .whileStmt c b => by
    simp [propagateStatement, propagateExpression_id s hA hE c,
      propagateStatement_id s hA hE b]
  | s, hA, hE, .forStmt i c u b => by
    simp [propagateStatement, propagateOptStmt_id s hA hE i,
      propagateOptExpr_id s hA hE c, propagateOptExpr_id s hA hE u,
      propagateStatement_id s hA hE b]
  | s, hA, hE, .function n a b => by
    simp [propagateStatement, propagateStatement_id s hA hE b]
  | s, hA, hE, .scope stmts => by
    have hA' : s.enterScope.allowNew = false := hA
    have hE' : ∀ f ∈ s.enterScope.constants, f = [] := by
      intro f hf
      rcases List.mem_cons.mp hf with h1 | h1
      · exact h1
      · exact hE f h1
    have hid := propagateStmtList_id s.enterScope hA' hE' stmts
    simp only [propagateStatement]
    rw [hid]
    simp [OptState.exitScope, OptState.enterScope]
  | s, hA, hE, .letStmt n v => by
    have hv := propagateExpression_id s hA hE v
    cases v
    case literal l =>
      cases l <;>
        simp [propagateStatement, hv, OptState.markConstant, hA]
    all_goals simp [propagateStatement, hv]

theorem propagateOptStmt_id : ∀ (s : OptState), s.allowNew = false →
    (∀ f ∈ s.constants, f = []) → ∀ o, propagateOptStmt s o = (s, o)
  | s, hA, hE, none => by simp [propagateOptStmt]
  | s, hA, hE, some st => by
    simp [propagateOptStmt, propagateStatement_id s hA hE st]

theorem propagateOptExpr_id : ∀ (s : OptState), s.allowNew = false →
    (∀ f ∈ s.constants, f = []) → ∀ o, propagateOptExpr s o = (s, o)
  | s, hA, hE, none => by simp [propagateOptExpr]
  | s, hA, hE, some e => by
    simp [propagateOptExpr, propagateExpression_id s hA hE e]

theorem propagateStmtList_id : ∀ (s : OptState), s.allowNew = false →
    (∀ f ∈ s.constants, f = []) → ∀ l, propagateStmtList s l = (s, l)
  | s, hA, hE, [] => by simp [propagateStmtList]
  | s, hA, hE, stmt :: rest => by
    simp [propagateStmtList, propagateStatement_id s hA hE stmt,
      propagateStmtList_id s hA hE rest]

end

theorem constantValuePropagation_id (a : AST) :
    constantValuePropagation a = a := by
  have h2 : ∀ f ∈ ({ constants := [[]], allowNew := false } : OptState).constants,
      f = [] := by simp
  show (match propagateStmtList { constants := [[]], allowNew := false }
          a.statements with
        | (_, stmts) => ({ statements := stmts } : AST)) = a
  rw [propagateStmtList_id _ rfl h2 a.statements]

theorem treeShaking_id (a : AST) : treeShaking a = a := by
  simp [treeShaking]

theorem optimize_eq_constantFolding (a : AST) :
    optimize a = constantFolding a := by
  unfold optimize
  rw [constantValuePropagation_id, treeShaking_id]

/-! ## Claim theorems -/

/-- The `While` arm wraps `evalWhileLoop` in a `none` signal: a `Return`
inside the body never reaches the statement result. -/
theorem whileSignalNone {fuel : Nat} {st : InterpState} {c : Expression}
    {b : Statement} {r : Option Literal × InterpState}
    (h : evalStmt fuel st (.whileStmt c b) = .ok r) : r.1 = none := by
  cases fuel with
  | zero => exact Outcome.noConfusion h
  | succ fuel =>
    simp only [evalStmt] at h
    obtain ⟨st1, h1, h⟩ := Outcome.bind_eq_ok.mp h
    cases h
    rfl

/-- Likewise for `For`: the loop result carries no signal. -/
theorem forSignalNone {fuel : Nat} {st : InterpState} {i : Option Statement}
    {c u : Option Expression} {b : Statement}
    {r : Option Literal × InterpState}
    (h : evalStmt fuel st (.forStmt i c u b) = .ok r) : r.1 = none := by
  cases fuel with
  | zero => exact Outcome.noConfusion h
  | succ fuel =>
    simp only [evalStmt] at h
    obtain ⟨st2, h2, h⟩ := Outcome.bind_eq_ok.mp h
    obtain ⟨st3, h3, h⟩ := Outcome.bind_eq_ok.mp h
    cases h
    rfl

theorem c1For_run (k : Nat) :
    evalStmt (k + 6) emptyGlobal c1For = .ok (none, emptyGlobal) := by
  with_unfolding_all rfl

/-- C1 counterexample: the `For` statement
`for (let i = 0; i < 2; i = i + 1) return 42;` runs to completion — its
body produces a `Return` signal on each of the two iterations, yet the
loop neither stops after the first one nor propagates the signal: the
statement evaluates to the no-signal result. -/
theorem C1_counterexample :
    ¬ SignalPropagated c1For emptyGlobal ∧
      evalStmt 40 emptyGlobal c1For = .ok (none, emptyGlobal) := by
  constructor
  · rintro ⟨fuel, v, st', h⟩
    have := forSignalNone h
    exact Option.noConfusion this
  · exact c1For_run 34

/-- C1 (amended): `While` and `For` discard the body signal — whenever a
`While` or `For` statement evaluation terminates successfully, its result
carries no `Return` signal (the signal is absorbed, not propagated). -/
theorem C1_loops_discard_return_signal :
    (∀ (fuel : Nat) (st : InterpState) (c : Expression) (b : Statement)
       (r : Option Literal × InterpState),
       evalStmt fuel st (.whileStmt c b) = .ok r → r.1 = none) ∧
    (∀ (fuel : Nat) (st : InterpState) (i : Option Statement)
       (c u : Option Expression) (b : Statement)
       (r : Option Literal × InterpState),
       evalStmt fuel st (.forStmt i c u b) = .ok r → r.1 = none) :=
  ⟨fun _ _ _ _ _ h => whileSignalNone h, fun _ _ _ _ _ _ _ h => forSignalNone h⟩

/-- Witness for C1: the amended theorem applied to the concrete `For`
loop. -/
theorem C1_witness :
    evalStmt 40 emptyGlobal c1For = .ok (none, emptyGlobal) ∧
      ((none, emptyGlobal) : Option Literal × InterpState).1 = none :=
  ⟨c1For_run 34,
   C1_loops_discard_return_signal.2 40 emptyGlobal _ _ _ _ (none, emptyGlobal)
     (c1For_run 34)⟩

theorem c2_run_err (k : Nat) :
    runProgram (k + 10) c2Program =
      .err "array.join expects all elements to be strings" ["[native function]"] := by
  with_unfolding_all rfl

theorem c2_small_fuel :
    ∀ f, f < 10 →
      isOkWithOutput (runProgram f c2Program) ["4", "1,2,3,4"] = false := by
  decide

/-- C2 counterexample: the program
`let a = [1, 2, 3]; a.push(4); console.log(a.length); console.log(a.join(","));`
does NOT print `4` then `1,2,3,4` at any fuel: `a.length` is a property
access that evaluates to a bound native method (printed as
`[native function]`), and `a.join(",")` panics because `join` insists on
string elements. -/
theorem C2_counterexample : ¬ ProgramPrints c2Program ["4", "1,2,3,4"] := by
  rintro ⟨fuel, h⟩
  rcases Nat.lt_or_ge fuel 10 with hf | hf
  · rw [c2_small_fuel fuel hf] at h
    exact Bool.noConfusion h
  · obtain ⟨k, rfl⟩ := Nat.exists_eq_add_of_le hf
    rw [Nat.add_comm] at h
    rw [c2_run_err k] at h
    exact Bool.noConfusion h

/-- C2 (amended): the program prints `[native function]` (the bound
`Array.length` method) and then aborts with the `join` element-type panic;
the `push` did happen — after the first two statements the shared array
holds `[1, 2, 3, 4]`. -/
theorem C2_push_then_abort :
    ProgramAbortsWith c2Program ["[native function]"] ∧
      (match runProgram 30 (c2Program.take 2) with
       | .ok st => st.heap
       | _ => []) = [[.number 1, .number 2, .number 3, .number 4]] := by
  constructor
  · exact ⟨10, "array.join expects all elements to be strings", c2_run_err 0⟩
  · with_unfolding_all rfl

/-- C3 counterexample: the lexing discipline fails at `/=` — the lexer
emits `SlashEqual` but leaves the `=` unconsumed (the `'/'` arm has no
`consume` in its `'='` branch), so the next iteration lexes the `=` again. -/
theorem C3_counterexample : ¬ LexerConsumesTwoCharOps := by
  intro h
  have hc := h ['/', '='] 0 '/' '=' .slashEqual (by simp [lexTwoCharOps]) rfl rfl
  rw [show lexStep ['/', '='] 0 '/' = some (some .slashEqual, 1) from by
    with_unfolding_all rfl] at hc
  simp at hc

/-- C3 (amended): only `== != <= >= += -= *=` are consumed in full with the
single corresponding token; `/=` emits `SlashEqual` while advancing past
only the `/`; `%=`, `&&`, `||` are silently skipped character by character
(no lexer arm for `%`, `&`, `|`), and `++`/`--` lex as two one-character
tokens. -/
theorem C3_lexer_two_char_ops :
    (∀ (src : List Char) (pos : Nat) (c1 c2 : Char) (tok : Token),
       ((c1, c2), tok) ∈ lexGoodTwoCharOps →
       src.get? pos = some c1 →
       src.get? (pos + 1) = some c2 →
       lexStep src pos c1 = some (some tok, pos + 2)) ∧
    (∀ (src : List Char) (pos : Nat),
       src.get? pos = some '/' →
       src.get? (pos + 1) = some '=' →
       lexStep src pos '/' = some (some .slashEqual, pos + 1)) ∧
    lex "%=" = some [.equal, .eof] ∧
    lex "&&" = some [.eof] ∧
    lex "||" = some [.eof] ∧
    lex "++" = some [.plus, .plus, .eof] ∧
    lex "--" = some [.minus, .minus, .eof] := by
  refine ⟨?_, ?_, by with_unfolding_all rfl, by with_unfolding_all rfl,
    by with_unfolding_all rfl, by with_unfolding_all rfl, by with_unfolding_all rfl⟩
  · intro src pos c1 c2 tok hmem h1 h2
    simp only [lexGoodTwoCharOps, List.mem_cons, List.not_mem_nil, or_false] at hmem
    rcases hmem with h | h | h | h | h | h | h <;>
      (cases h; unfold lexStep; rw [h2]; simp)
  · intro src pos h1 h2
    unfold lexStep
    rw [h2]
    simp

/-- Witness for C3: the amended theorem applied at `==` (fully consumed)
and at `/=` (the `=` left unconsumed). -/
theorem C3_witness :
    lexStep ['=', '='] 0 '=' = some (some .equalEqual, 2) ∧
      lexStep ['/', '='] 0 '/' = some (some .slashEqual, 1) :=
  ⟨C3_lexer_two_char_ops.1 ['=', '='] 0 '=' '=' .equalEqual
     (by simp [lexGoodTwoCharOps]) rfl rfl,
   C3_lexer_two_char_ops.2.1 ['/', '='] 0 rfl rfl⟩

/-- C4: the discovery walk records nothing — the source builds the lazy
iterator `stmts.clone().into_iter().map(|stmt| self.propagate_statement(stmt))`
and drops it unconsumed, contradicting its own comment ("We need to
pre-walk the tree before we assign constants").  With the table empty and
then closed, the optimizer leaves the program unchanged: no
`Let y = Literal(15)` appears. -/
theorem C4_optimizer_misses_propagation :
    optimize c4Program = c4Program ∧
      Statement.letStmt "y" (.literal (.number 15)) ∉
        (optimize c4Program).statements := by
  have h : optimize c4Program = c4Program := by with_unfolding_all rfl
  refine ⟨h, ?_⟩
  rw [h]
  intro hmem
  simp only [c4Program, List.mem_cons, List.not_mem_nil, or_false] at hmem
  rcases hmem with h1 | h1 | h1 <;> simp at h1

/-- C5 counterexample: on `(1 + 2) + 3;` one optimizer pass folds only the
inner addition (producing `3 + 3`), a second pass folds again (producing
`6`): the optimizer is not idempotent. -/
theorem C5_counterexample : optimize (optimize c5Ast) ≠ optimize c5Ast := by
  have h1 : optimize c5Ast =
      ⟨[.expression (.binaryOp (.literal (.number 3)) .add
        (.literal (.number 3)))]⟩ := by with_unfolding_all rfl
  have h2 : optimize (optimize c5Ast) =
      ⟨[.expression (.literal (.number 6))]⟩ := by with_unfolding_all rfl
  rw [h2, h1]
  intro h
  simp at h

/-- C5 (amended): since the dead discovery walk makes propagation the
identity, the optimizer coincides with the folding pass, which rewrites
one nesting level per application; the optimizer is idempotent exactly on
ASTs for which one folding application is already a fixpoint. -/
theorem C5_optimize_idempotent_iff_fold_fixpoint (a : AST)
    (h : constantFolding (constantFolding a) = constantFolding a) :
    optimize (optimize a) = optimize a := by
  calc optimize (optimize a)
      = constantFolding (optimize a) := optimize_eq_constantFolding _
    _ = constantFolding (constantFolding a) := by
        rw [optimize_eq_constantFolding]
    _ = constantFolding a := h
    _ = optimize a := (optimize_eq_constantFolding a).symm

/-- Witness for C5: an already-folded AST satisfies the fixpoint
hypothesis, so one and two optimizer passes agree on it. -/
theorem C5_witness :
    constantFolding (constantFolding ⟨[.expression (.literal (.number 5))]⟩) =
        constantFolding ⟨[.expression (.literal (.number 5))]⟩ ∧
      optimize (optimize ⟨[.expression (.literal (.number 5))]⟩) =
        optimize ⟨[.expression (.literal (.number 5))]⟩ :=
  ⟨rfl, C5_optimize_idempotent_iff_fold_fixpoint _ rfl⟩


theorem lookupProp_not_found {props : List (String × Literal)} {name : String}
    (h : ∀ p ∈ props, p.1 ≠ name) : lookupProp props name = .undefined := by
  induction props with
  | nil => rfl
  | cons kv rest ih =>
    obtain ⟨k, v⟩ := kv
    have hk : k ≠ name := h (k, v) (by simp)
    simp only [lookupProp, if_neg hk]
    exact ih (fun p hp => h p (by simp [hp]))

/-- C10: property access on an object that lacks the requested key
evaluates to `Undefined` (the ordered scan falls through), not to an
error. -/
theorem C10_missing_property_is_undefined
    (fuel : Nat) (st st1 : InterpState) (target : Expression)
    (props : List (String × Literal)) (name : String)
    (h1 : evalExpr fuel st target = .ok (.object props, st1))
    (h2 : ∀ p ∈ props, p.1 ≠ name) :
    evalExpr (fuel + 1) st (.property target name) = .ok (.undefined, st1) := by
  simp only [evalExpr]
  rw [h1]
  simp only [Bind.bind, Outcome.bind]
  rw [lookupProp_not_found h2]

/-- Witness for C10: `o.nope` on `{ k: 1 }` is `Undefined`. -/
theorem C10_witness :
    evalExpr 1 c6ObjState (.identifier "o") =
        .ok (.object [("k", .number 1)], c6ObjState) ∧
      evalExpr 2 c6ObjState (.property (.identifier "o") "nope") =
        .ok (.undefined, c6ObjState) :=
  ⟨by with_unfolding_all rfl,
   C10_missing_property_is_undefined 1 c6ObjState c6ObjState (.identifier "o")
     [("k", .number 1)] "nope" (by with_unfolding_all rfl) (by decide)⟩

/-- C9: `&&` and `||` evaluate both operands, left then right, with no
short-circuit, and return the Boolean combination of their truthiness. -/
theorem C9_and_or_no_short_circuit :
    (∀ (fuel : Nat) (st st1 st2 : InterpState) (l r : Expression)
       (v1 v2 : Literal),
       evalExpr fuel st l = .ok (v1, st1) →
       evalExpr fuel st1 r = .ok (v2, st2) →
       evalExpr (fuel + 1) st (.binaryOp l .binaryAnd r) =
         .ok (.boolean (truthyB st2.heap v1 && truthyB st2.heap v2), st2)) ∧
    (∀ (fuel : Nat) (st st1 st2 : InterpState) (l r : Expression)
       (v1 v2 : Literal),
       evalExpr fuel st l = .ok (v1, st1) →
       evalExpr fuel st1 r = .ok (v2, st2) →
       evalExpr (fuel + 1) st (.binaryOp l .binaryOr r) =
         .ok (.boolean (truthyB st2.heap v1 || truthyB st2.heap v2), st2)) := by
  constructor <;>
    (intro fuel st st1 st2 l r v1 v2 h1 h2
     simp only [evalExpr]
     rw [h1]
     simp only [Bind.bind, Outcome.bind]
     rw [h2]
     simp only [applyBinOp])

/-- Witness for C9: with a falsy left operand the right operand still runs —
the assignment `x = 7` in the right operand of `0 && (x = 7)` takes
effect, and the result is the Boolean `false`. -/
theorem C9_witness :
    evalExpr 4 emptyGlobal (.literal (.number 0)) =
        .ok (.number 0, emptyGlobal) ∧
      evalExpr 4 emptyGlobal
          (.assignment (.identifier "x") (.literal (.number 7))) =
        .ok (.number 7,
          { scopes := [[("x", .number 7)]], heap := [], output := [] }) ∧
      evalExpr 5 emptyGlobal
          (.binaryOp (.literal (.number 0)) .binaryAnd
            (.assignment (.identifier "x") (.literal (.number 7)))) =
        .ok (.boolean false,
          { scopes := [[("x", .number 7)]], heap := [], output := [] }) :=
  ⟨by with_unfolding_all rfl, by with_unfolding_all rfl,
   C9_and_or_no_short_circuit.1 4 emptyGlobal emptyGlobal
     { scopes := [[("x", .number 7)]], heap := [], output := [] }
     (.literal (.number 0))
     (.assignment (.identifier "x") (.literal (.number 7)))
     (.number 0) (.number 7)
     (by with_unfolding_all rfl) (by with_unfolding_all rfl)⟩

/-- C8: every successfully terminating statement evaluation preserves the
scope-stack depth (frames pushed by `Scope`, `For` and function calls are
popped on every exit path, including the early-`Return` path out of a
`Scope`). -/
theorem C8_scope_depth_preserved
    (fuel : Nat) (st : InterpState) (s : Statement) (sig : Option Literal)
    (st' : InterpState) (h : evalStmt fuel st s = .ok (sig, st')) :
    st'.scopes.length = st.scopes.length :=
  (evalDepth fuel).2.2.2.2.1 st s (sig, st') h

/-- Witness for C8: a `Scope` that exits through the early-`Return` path
still pops its frame — the depth is back to 1. -/
theorem C8_witness :
    evalStmt 10 emptyGlobal (.scope [.ret (.literal (.number 1))]) =
        .ok (some (.number 1), emptyGlobal) ∧
      emptyGlobal.scopes.length = emptyGlobal.scopes.length :=
  ⟨by with_unfolding_all rfl,
   C8_scope_depth_preserved 10 emptyGlobal (.scope [.ret (.literal (.number 1))])
     (some (.number 1)) emptyGlobal (by with_unfolding_all rfl)⟩

/-- C7 counterexample: indexing `[1, 2]` (bound to `a`) with `-1` does not
abort — the `f64 as usize` cast saturates the negative index to `0` and
yields the first element; likewise the fractional index `1.5` truncates to
`1` and yields the second element. -/
theorem C7_counterexample :
    okValue (evalExpr 10 c7State
        (.indexE (.identifier "a") (.literal (.number (-1))))) =
      some (.number 1) ∧
    okValue (evalExpr 10 c7State
        (.indexE (.identifier "a") (.literal (.number (3 / 2))))) =
      some (.number 2) := by
  constructor <;> with_unfolding_all rfl

/-- C7 (amended): an index evaluation on an identifier bound to an array
casts the `Number` index with `as usize` (truncation toward zero,
saturating at 0 for negatives) and aborts with the out-of-bounds panic
exactly when the CAST index reaches the array length; indexing any
non-identifier target (such as the literal `[1,2][5]`) aborts with the
"Expected identifier" panic instead of an index error. -/
theorem C7_index_cast_semantics :
    (∀ (fuel : Nat) (st : InterpState) (name : String) (addr : Nat)
       (elems : List Literal) (q : ℚ),
       st.getVar name = some (.array addr) →
       st.heap.get? addr = some elems →
       evalExpr (fuel + 2) st
           (.indexE (.identifier name) (.literal (.number q))) =
         match elems.get? (f64AsUsize q) with
         | some v => .ok (v, st)
         | none => .err "Index out of bounds" st.output) ∧
    (∀ (fuel : Nat) (st st1 : InterpState) (els : List Expression)
       (ie : Expression) (vi : Literal),
       evalExpr fuel st ie = .ok (vi, st1) →
       evalExpr (fuel + 1) st (.indexE (.array els) ie) =
         .err "Expected identifier" st1.output) := by
  constructor
  · intro fuel st name addr elems q hv hh
    show evalExpr (fuel + 1 + 1) st _ = _
    simp only [evalExpr]
    simp only [Bind.bind, Outcome.bind]
    rw [hv]
    dsimp only
    rw [hh]
  · intro fuel st st1 els ie vi h1
    simp only [evalExpr]
    rw [h1]
    simp only [Bind.bind, Outcome.bind]

/-- Witness for C7: the amended theorem applied at the negative index `-1`
on `[1, 2]` (yielding element `1`) and at the non-identifier target. -/
theorem C7_witness :
    evalExpr 3 c7State (.indexE (.identifier "a") (.literal (.number (-1)))) =
        .ok (.number 1, c7State) ∧
      evalExpr 2 c7State (.indexE (.array []) (.literal (.number 0))) =
        .err "Expected identifier" c7State.output :=
  ⟨C7_index_cast_semantics.1 1 c7State "a" 0 [.number 1, .number 2] (-1)
     (by with_unfolding_all rfl) (by with_unfolding_all rfl),
   C7_index_cast_semantics.2 1 c7State c7State [] (.literal (.number 0))
     (.number 0) (by with_unfolding_all rfl)⟩

/-- C6 counterexample: the index assignment `a[0] = 9` (with `a` bound to
`[1, 2]`) evaluates to the ARRAY, not to the assigned value `9`. -/
theorem C6_counterexample :
    okValue (evalExpr 10 c7State c6IndexAssign) = some (.array 0) ∧
      Literal.array 0 ≠ Literal.number 9 := by
  constructor
  · with_unfolding_all rfl
  · intro h; simp at h

/-- C6 (amended): of the four successful assignment paths, the
identifier target and the key-appending property target evaluate to the
assigned value; the index target evaluates to the containing array, and a
property target whose key already exists evaluates to the updated
object. -/
theorem C6_assignment_result_values :
    (∀ (fuel : Nat) (st st1 st2 : InterpState) (name : String)
       (value : Expression) (res : Literal),
       evalExpr fuel st value = .ok (res, st1) →
       st1.setVar name res = some st2 →
       evalExpr (fuel + 1) st (.assignment (.identifier name) value) =
         .ok (res, st2)) ∧
    (∀ (fuel : Nat) (st st1 st2 st4 : InterpState) (name : String)
       (value i : Expression) (res : Literal) (addr : Nat)
       (q : ℚ) (elems : List Literal),
       evalExpr fuel st value = .ok (res, st1) →
       st1.getVar name = some (.array addr) →
       evalExpr fuel st1 i = .ok (.number q, st2) →
       st2.heap.get? addr = some elems →
       f64AsUsize q < elems.length →
       (st2.heapSet addr (elems.set (f64AsUsize q) res)).setVar name
           (.array addr) = some st4 →
       evalExpr (fuel + 1) st
           (.assignment (.indexE (.identifier name) i) value) =
         .ok (.array addr, st4)) ∧
    (∀ (fuel : Nat) (st st1 st2 : InterpState) (objName nm : String)
       (value : Expression) (res : Literal)
       (props props' : List (String × Literal)),
       evalExpr fuel st value = .ok (res, st1) →
       st1.getVar objName = some (.object props) →
       replaceProp nm res props = some props' →
       st1.setVar objName (.object props') = some st2 →
       evalExpr (fuel + 1) st
           (.assignment (.property (.identifier objName) nm) value) =
         .ok (.object props', st2)) ∧
    (∀ (fuel : Nat) (st st1 st2 : InterpState) (objName nm : String)
       (value : Expression) (res : Literal)
       (props : List (String × Literal)),
       evalExpr fuel st value = .ok (res, st1) →
       st1.getVar objName = some (.object props) →
       replaceProp nm res props = none →
       st1.setVar objName (.object (props ++ [(nm, res)])) = some st2 →
       evalExpr (fuel + 1) st
           (.assignment (.property (.identifier objName) nm) value) =
         .ok (res, st2)) := by
  refine ⟨?_, ?_, ?_, ?_⟩
  · intro fuel st st1 st2 name value res h1 h2
    simp only [evalExpr]
    rw [h1]
    simp only [Bind.bind, Outcome.bind]
    rw [h2]
  · intro fuel st st1 st2 st4 name value i res addr q elems h1 hv h2 hh hlt hset
    simp only [evalExpr]
    rw [h1]
    simp only [Bind.bind, Outcome.bind]
    rw [hv]
    dsimp only
    rw [h2]
    simp only [Bind.bind, Outcome.bind]
    rw [hh]
    dsimp only
    rw [if_pos hlt, hset]
  · intro fuel st st1 st2 objName nm value res props props' h1 hv hrep hset
    simp only [evalExpr]
    rw [h1]
    simp only [Bind.bind, Outcome.bind]
    rw [hv]
    dsimp only
    rw [hrep]
    dsimp only
    rw [hset]
  · intro fuel st st1 st2 objName nm value res props h1 hv hrep hset
    simp only [evalExpr]
    rw [h1]
    simp only [Bind.bind, Outcome.bind]
    rw [hv]
    dsimp only
    rw [hrep]
    dsimp only
    rw [hset]

/-- Witness for C6: all four assignment shapes at concrete inputs —
`a[0] = 9` gives the array, `o.k = 2` gives the updated object,
`o.z = 2` and `x = 7` give the assigned value. -/
theorem C6_witness :
    evalExpr 11 c7State c6IndexAssign =
        .ok (.array 0,
          { scopes := [[("a", .array 0)]], heap := [[.number 9, .number 2]],
            output := [] }) ∧
      evalExpr 11 c6ObjState
          (.assignment (.property (.identifier "o") "k") (.literal (.number 2))) =
        .ok (.object [("k", .number 2)],
          { scopes := [[("o", .object [("k", .number 2)])]], heap := [],
            output := [] }) ∧
      evalExpr 11 c6ObjState
          (.assignment (.property (.identifier "o") "z") (.literal (.number 2))) =
        .ok (.number 2,
          { scopes := [[("o", .object [("k", .number 1), ("z", .number 2)])]],
            heap := [], output := [] }) ∧
      evalExpr 11 emptyGlobal
          (.assignment (.identifier "x") (.literal (.number 7))) =
        .ok (.number 7,
          { scopes := [[("x", .number 7)]], heap := [], output := [] }) :=
  ⟨C6_assignment_result_values.2.1 10 c7State c7State c7State
     { scopes := [[("a", .array 0)]], heap := [[.number 9, .number 2]],
       output := [] } "a" (.literal (.number 9)) (.literal (.number 0))
     (.number 9) 0 0 [.number 1, .number 2]
     (by with_unfolding_all rfl) (by with_unfolding_all rfl)
     (by with_unfolding_all rfl) (by with_unfolding_all rfl)
     (by decide) (by with_unfolding_all rfl),
   C6_assignment_result_values.2.2.1 10 c6ObjState c6ObjState
     { scopes := [[("o", .object [("k", .number 2)])]], heap := [],
       output := [] } "o" "k" (.literal (.number 2)) (.number 2)
     [("k", .number 1)] [("k", .number 2)]
     (by with_unfolding_all rfl) (by with_unfolding_all rfl)
     (by with_unfolding_all rfl) (by with_unfolding_all rfl),
   C6_assignment_result_values.2.2.2 10 c6ObjState c6ObjState
     { scopes := [[("o", .object [("k", .number 1), ("z", .number 2)])]],
       heap := [], output := [] } "o" "z" (.literal (.number 2)) (.number 2)
     [("k", .number 1)]
     (by with_unfolding_all rfl) (by with_unfolding_all rfl)
     (by with_unfolding_all rfl) (by with_unfolding_all rfl),
   C6_assignment_result_values.1 10 emptyGlobal emptyGlobal
     { scopes := [[("x", .number 7)]], heap := [], output := [] } "x"
     (.literal (.number 7)) (.number 7)
     (by with_unfolding_all rfl) (by with_unfolding_all rfl)⟩

end TinyJs
